import Mathlib

/-!
# UART driver (`src/src/uart.c`, `src/src/uart.h`): shallow embedding

The C globals and the two memory-mapped registers become fields of one state
record. Machine integers are `Nat`; 32-bit arithmetic carries an explicit
`% 2 ^ 32` at the places where it can wrap. A pointer argument is an `Option`:
`none` is `NULL`, `some m` is a valid pointer whose target currently holds `m`
(a byte, or for a buffer the bytes at offsets `0, 1, 2, ...`).
A function that can spin forever returns `Option`: `none` is "does not return".

Execution is sequential: every function runs to completion, the interrupt
handler is a function like the others, and a register is a state cell that
changes only when the code stores to it.
-/

namespace Uart

/-! ## uart.h -/

/-- Macro `#define QUEUE_SIZE 256` -/
def QUEUE_SIZE : Nat := 256

/-- Type `typedef struct queue_s { uint8_t data[QUEUE_SIZE]; uint32_t head, tail, count; } queue_t;`
The array is a map from index to byte; only indices below `QUEUE_SIZE` belong
to the array. -/
structure queue_t where
  data : Nat → Nat
  head : Nat
  tail : Nat
  count : Nat

/-- Type `typedef enum { ... } uart_status_t;` -/
inductive uart_status_t where
  | QUEUE_BUFFER_NO_ERROR
  | QUEUE_BUFFER_OVERFLOW
  | QUEUE_BUFFER_EMPTY
  | INPUT_ERROR
  deriving DecidableEq, Repr

open uart_status_t

/-- Integer value of an enumerator (`QUEUE_BUFFER_NO_ERROR = 0`, then counting up). -/
def uart_status_t.toNat : uart_status_t → Nat
  | QUEUE_BUFFER_NO_ERROR => 0
  | QUEUE_BUFFER_OVERFLOW => 1
  | QUEUE_BUFFER_EMPTY => 2
  | INPUT_ERROR => 3

/-- Conversion of an `int` to the enumeration, as done by the assignment
`ret = (... == QUEUE_BUFFER_NO_ERROR)`; only 0 and 1 occur there. -/
def uart_status_t.fromNat : Nat → uart_status_t
  | 0 => QUEUE_BUFFER_NO_ERROR
  | 1 => QUEUE_BUFFER_OVERFLOW
  | 2 => QUEUE_BUFFER_EMPTY
  | _ => INPUT_ERROR

/-! ## uart.c: macros -/

def RX_NOT_EMPTY : Nat := 1 <<< 0
def TX_NOT_FULL : Nat := 1 <<< 1
def RX_ERROR : Nat := 1 <<< 2
def TX_ENABLE : Nat := 1 <<< 13
def RX_ENABLE : Nat := 1 <<< 14
def INT_ENABLE : Nat := 1 <<< 15
def UART_INTERRUPT_MASK : Nat := 0x0000FFFF

/-- Macro `INTERRUPT_DISABLE()`: `reg &= ~(INT_ENABLE & UART_INTERRUPT_MASK)` on the
16-bit register, i.e. the register keeps its low 15 bits. -/
def INTERRUPT_DISABLE (reg : Nat) : Nat :=
  reg &&& (0xFFFF - (INT_ENABLE &&& UART_INTERRUPT_MASK))

/-- Macro `INTERRUPT_ENABLE()`: `reg |= (INT_ENABLE & UART_INTERRUPT_MASK)`. -/
def INTERRUPT_ENABLE (reg : Nat) : Nat :=
  reg ||| (INT_ENABLE &&& UART_INTERRUPT_MASK)

/-- Macro `IS_INTERRUPT_ENABLED()`: `reg &= (INT_ENABLE & UART_INTERRUPT_MASK)`. The
macro is a compound assignment: it yields the masked value and also stores
it back into the register. Result: (value of the expression, new register). -/
def IS_INTERRUPT_ENABLED (reg : Nat) : Nat × Nat :=
  (reg &&& (INT_ENABLE &&& UART_INTERRUPT_MASK), reg &&& (INT_ENABLE &&& UART_INTERRUPT_MASK))

/-! ## uart.c: types and variables -/

/-- Type `typedef struct mutex_s { volatile uint32_t locked; } mutex_t;` -/
structure mutex_t where
  locked : Nat

/-- File-scope variables of `uart.c` together with the two device registers. -/
structure uart_t where
  rx_queue : queue_t
  tx_queue : queue_t
  m_is_initialised : Bool
  m_received_bytes_count : Nat
  uart_mutex : mutex_t
  UART_CONTROL_STATUS_REG : Nat
  UART_DATA_REG : Nat

/-- A `queue_t *` argument: the address of one of the two queues of the driver. -/
inductive queue_ptr where
  | rx
  | tx
  deriving DecidableEq, Repr

/-- Dereference a queue pointer. -/
def uart_t.queue (s : uart_t) : queue_ptr → queue_t
  | queue_ptr.rx => s.rx_queue
  | queue_ptr.tx => s.tx_queue

/-- Store through a queue pointer. -/
def uart_t.setQueue (s : uart_t) (p : queue_ptr) (q : queue_t) : uart_t :=
  match p with
  | queue_ptr.rx => { s with rx_queue := q }
  | queue_ptr.tx => { s with tx_queue := q }

/-- Result of `memset(&queue, 0, sizeof(queue))`. -/
def queue_zero : queue_t :=
  { data := fun _ => 0, head := 0, tail := 0, count := 0 }

/-! ## uart.c: static functions -/

/-- Function `mutex_init`. -/
def mutex_init (_mutex : mutex_t) : mutex_t :=
  { locked := 0 }

/-- Function `mutex_lock`: `while (__atomic_test_and_set(&mutex->locked, ...)) ;`.
In a sequential run nobody else clears the flag, so the loop ends at once when
the flag was clear and never ends when it was set. -/
def mutex_lock (mutex : mutex_t) : Option mutex_t :=
  if mutex.locked ≠ 0 then none else some { locked := 1 }

/-- Function `mutex_unlock`. -/
def mutex_unlock (_mutex : mutex_t) : mutex_t :=
  { locked := 0 }

/-- What `queue_push` leaves behind: return value, control/status register, queue. -/
structure push_result where
  ret : uart_status_t
  reg : Nat
  queue : queue_t

/-- What `queue_pop` leaves behind: return value, control/status register,
queue, and the target of the output pointer (`none` for a null pointer). -/
structure pop_result where
  ret : uart_status_t
  reg : Nat
  queue : queue_t
  byte : Option Nat

/-- Function `queue_push(queue, byte)`, with the control/status register threaded through. -/
def queue_push (reg : Nat) (queue : queue_t) (byte : Nat) : push_result :=
  let interrupt_state := (IS_INTERRUPT_ENABLED reg).1
  let reg := (IS_INTERRUPT_ENABLED reg).2
  let reg := INTERRUPT_DISABLE reg
  let r : uart_status_t × queue_t :=
    if queue.count < QUEUE_SIZE then
      let tail := if queue.tail ≥ QUEUE_SIZE then 0 else queue.tail
      (QUEUE_BUFFER_NO_ERROR,
        { queue with
          data := Function.update queue.data tail byte
          tail := (tail + 1) % 2 ^ 32
          count := (queue.count + 1) % 2 ^ 32 })
    else
      (QUEUE_BUFFER_OVERFLOW, queue)
  let reg := if interrupt_state ≠ 0 then INTERRUPT_ENABLE reg else reg
  { ret := r.1, reg := reg, queue := r.2 }

/-- Function `queue_pop(queue, byte)`; `byte` is the output pointer. -/
def queue_pop (reg : Nat) (queue : queue_t) (byte : Option Nat) : pop_result :=
  let interrupt_state := (IS_INTERRUPT_ENABLED reg).1
  let reg := (IS_INTERRUPT_ENABLED reg).2
  let reg := INTERRUPT_DISABLE reg
  let r : uart_status_t × queue_t × Option Nat :=
    match byte with
    | some _ =>
      if queue.count > 0 then
        let head := (queue.head + 1) % 2 ^ 32
        let head := if head ≥ QUEUE_SIZE then 0 else head
        (QUEUE_BUFFER_NO_ERROR,
          { queue with head := head, count := queue.count - 1 },
          some (queue.data queue.head))
      else
        (QUEUE_BUFFER_EMPTY, queue, byte)
    | none => (INPUT_ERROR, queue, byte)
  let reg := if interrupt_state ≠ 0 then INTERRUPT_ENABLE reg else reg
  { ret := r.1, reg := reg, queue := r.2.1, byte := r.2.2 }

/-! ## uart.c: interrupt handler and API -/

/-- Function `uart_interrupt_handler`. The local `tx_byte` is uninitialised in C; the
model starts it at 0, and it is only used after `queue_pop` has overwritten it. -/
def uart_interrupt_handler (s : uart_t) : uart_t :=
  let status := s.UART_CONTROL_STATUS_REG
  let s :=
    if status &&& RX_NOT_EMPTY ≠ 0 ∧ status &&& RX_ENABLE ≠ 0 then
      let rx_byte := s.UART_DATA_REG
      let p := queue_push s.UART_CONTROL_STATUS_REG s.rx_queue rx_byte
      let s := { s with rx_queue := p.queue, UART_CONTROL_STATUS_REG := p.reg }
      if p.ret = QUEUE_BUFFER_NO_ERROR then
        { s with m_received_bytes_count := (s.m_received_bytes_count + 1) % 2 ^ 32 }
      else s
    else s
  if status &&& TX_NOT_FULL ≠ 0 ∧ status &&& TX_ENABLE ≠ 0 then
    let p := queue_pop s.UART_CONTROL_STATUS_REG s.tx_queue (some 0)
    let s := { s with tx_queue := p.queue, UART_CONTROL_STATUS_REG := p.reg }
    if p.ret = QUEUE_BUFFER_NO_ERROR then
      { s with UART_DATA_REG := p.byte.getD 0 }
    else s
  else s

/-- Function `uart_init`. -/
def uart_init (s : uart_t) : uart_t :=
  if s.m_is_initialised = false then
    { s with
      tx_queue := queue_zero
      rx_queue := queue_zero
      uart_mutex := mutex_init s.uart_mutex
      m_received_bytes_count := 0
      UART_CONTROL_STATUS_REG :=
        s.UART_CONTROL_STATUS_REG ||| (RX_ENABLE ||| TX_ENABLE ||| INT_ENABLE)
      m_is_initialised := true }
  else s

/-- Return value and driver state after `uart_write_bytes`. -/
structure write_result where
  ret : uart_status_t
  state : uart_t

/-- State of the `for` loop of `uart_write_bytes`. -/
structure write_loop_state where
  ret : uart_status_t
  reg : Nat
  queue : queue_t

/-- The loop `for (uint32_t i = 0; i < length && ret; i++) ret = queue_push(queue, data[i]);`
entered with the given `i` and `ret`. The condition `ret` is the C truth value
of the status, i.e. `ret != 0`. `none`: the fuel ran out before the loop ended.
`i < length` holds before `i++`, so the increment cannot wrap. -/
def uart_write_bytes_loop (data : Nat → Nat) (length : Nat) :
    Nat → Nat → write_loop_state → Option write_loop_state
  | 0, _, _ => none
  | fuel + 1, i, st =>
    if i < length ∧ st.ret.toNat ≠ 0 then
      let p := queue_push st.reg st.queue (data i)
      uart_write_bytes_loop data length fuel (i + 1)
        { ret := p.ret, reg := p.reg, queue := p.queue }
    else some st

/-- Function `uart_write_bytes(queue, data, length)`. The loop makes at most `length`
passes, so it is run with fuel `length + 1`. -/
def uart_write_bytes (s : uart_t) (queue : queue_ptr) (data : Option (Nat → Nat))
    (length : Nat) : Option write_result :=
  let ret := QUEUE_BUFFER_NO_ERROR
  let interrupt_state := (IS_INTERRUPT_ENABLED s.UART_CONTROL_STATUS_REG).1
  let s := { s with UART_CONTROL_STATUS_REG := (IS_INTERRUPT_ENABLED s.UART_CONTROL_STATUS_REG).2 }
  let s := { s with UART_CONTROL_STATUS_REG := INTERRUPT_DISABLE s.UART_CONTROL_STATUS_REG }
  let body : Option write_result :=
    match data with
    | some d =>
      if (length + (s.queue queue).count) % 2 ^ 32 ≤ QUEUE_SIZE then
        match mutex_lock s.uart_mutex with
        | none => none
        | some m =>
          let s := { s with uart_mutex := m }
          match uart_write_bytes_loop d length (length + 1) 0
              { ret := ret, reg := s.UART_CONTROL_STATUS_REG, queue := s.queue queue } with
          | none => none
          | some st =>
            some { ret := st.ret
                   state := { s.setQueue queue st.queue with
                              UART_CONTROL_STATUS_REG := st.reg
                              uart_mutex := mutex_unlock s.uart_mutex } }
      else some { ret := INPUT_ERROR, state := s }
    | none => some { ret := INPUT_ERROR, state := s }
  body.map fun r =>
    if interrupt_state ≠ 0 then
      { r with state := { r.state with
          UART_CONTROL_STATUS_REG := INTERRUPT_ENABLE r.state.UART_CONTROL_STATUS_REG } }
    else r

/-- Return value, driver state and caller memory after a read call:
`output_buffer` is what the buffer pointer now points to (`none`: null pointer)
and `length` is `*max_length` (non-blocking read) or `bytes_read` (blocking read). -/
structure read_result where
  ret : uart_status_t
  state : uart_t
  output_buffer : Option (Nat → Nat)
  length : Nat

/-- State of the `while` loops of the two read functions. -/
structure read_loop_state where
  ret : uart_status_t
  state : uart_t
  output_buffer : Nat → Nat
  bytes_read : Nat

/-- One pass through the body of the loop of `uart_read_blocking`, from
`INTERRUPT_DISABLE()` to `mutex_unlock`, after `mutex_lock` left the lock as `m`.
`ret = queue_pop(...) == QUEUE_BUFFER_NO_ERROR` parses as
`ret = (queue_pop(...) == QUEUE_BUFFER_NO_ERROR)`; the value of that assignment
is the condition of the `if`. The sleep hook is empty. -/
def uart_read_blocking_pass (interrupt_state : Nat) (st : read_loop_state) (m : mutex_t) :
    read_loop_state :=
  let s := { st.state with uart_mutex := m }
  let reg := INTERRUPT_DISABLE s.UART_CONTROL_STATUS_REG
  let p := queue_pop reg s.rx_queue (some (st.output_buffer st.bytes_read))
  let output_buffer :=
    Function.update st.output_buffer st.bytes_read (p.byte.getD (st.output_buffer st.bytes_read))
  let ret := uart_status_t.fromNat (if p.ret = QUEUE_BUFFER_NO_ERROR then 1 else 0)
  let bytes_read := if ret.toNat ≠ 0 then st.bytes_read + 1 else st.bytes_read
  let reg := if interrupt_state ≠ 0 then INTERRUPT_ENABLE p.reg else p.reg
  { ret := ret
    state := { s with
               rx_queue := p.queue
               UART_CONTROL_STATUS_REG := reg
               uart_mutex := mutex_unlock s.uart_mutex }
    output_buffer := output_buffer
    bytes_read := bytes_read }

/-- The loop `while (bytes_read < length) { mutex_lock(&uart_mutex); ... }` of
`uart_read_blocking`. `none`: the call never gets the lock, or the fuel ran out
before the loop ended. -/
def uart_read_blocking_loop (length interrupt_state : Nat) :
    Nat → read_loop_state → Option read_loop_state
  | 0, _ => none
  | fuel + 1, st =>
    if st.bytes_read < length then
      match mutex_lock st.state.uart_mutex with
      | none => none
      | some m =>
        uart_read_blocking_loop length interrupt_state fuel
          (uart_read_blocking_pass interrupt_state st m)
    else some st

/-- Function `uart_read_blocking(output_buffer, length)`, run for at most `fuel` passes
of its loop. -/
def uart_read_blocking (fuel : Nat) (s : uart_t) (output_buffer : Option (Nat → Nat))
    (length : Nat) : Option read_result :=
  let bytes_read := 0
  let interrupt_state := (IS_INTERRUPT_ENABLED s.UART_CONTROL_STATUS_REG).1
  let s := { s with UART_CONTROL_STATUS_REG := (IS_INTERRUPT_ENABLED s.UART_CONTROL_STATUS_REG).2 }
  let ret := QUEUE_BUFFER_NO_ERROR
  match output_buffer with
  | some buf =>
    (uart_read_blocking_loop length interrupt_state fuel
        { ret := ret, state := s, output_buffer := buf, bytes_read := bytes_read }).map
      fun st => { ret := st.ret, state := st.state, output_buffer := some st.output_buffer,
                  length := st.bytes_read }
  | none => some { ret := INPUT_ERROR, state := s, output_buffer := none, length := bytes_read }

/-- The loop `while (bytes_read < *max_length) { if (queue_pop(...) == NO_ERROR) bytes_read++; else break; }`
of `uart_read_nonblocking`. `none`: the fuel ran out before the loop ended. -/
def uart_read_nonblocking_loop (max_length : Nat) :
    Nat → read_loop_state → Option read_loop_state
  | 0, _ => none
  | fuel + 1, st =>
    if st.bytes_read < max_length then
      let p := queue_pop st.state.UART_CONTROL_STATUS_REG st.state.rx_queue
        (some (st.output_buffer st.bytes_read))
      let st1 : read_loop_state :=
        { ret := st.ret
          state := { st.state with rx_queue := p.queue, UART_CONTROL_STATUS_REG := p.reg }
          output_buffer :=
            Function.update st.output_buffer st.bytes_read
              (p.byte.getD (st.output_buffer st.bytes_read))
          bytes_read := st.bytes_read }
      if p.ret = QUEUE_BUFFER_NO_ERROR then
        uart_read_nonblocking_loop max_length fuel { st1 with bytes_read := st.bytes_read + 1 }
      else some st1
    else some st

/-- Function `uart_read_nonblocking(output_buffer, max_length)`; `max_length` is the
value `*max_length` at entry. The loop makes at most `*max_length` passes, so
it is run with fuel `max_length + 1`. -/
def uart_read_nonblocking (s : uart_t) (output_buffer : Option (Nat → Nat))
    (max_length : Nat) : Option read_result :=
  let bytes_read := 0
  let interrupt_state := (IS_INTERRUPT_ENABLED s.UART_CONTROL_STATUS_REG).1
  let s := { s with UART_CONTROL_STATUS_REG := (IS_INTERRUPT_ENABLED s.UART_CONTROL_STATUS_REG).2 }
  match output_buffer with
  | none => some { ret := INPUT_ERROR, state := s, output_buffer := none, length := max_length }
  | some buf =>
    match mutex_lock s.uart_mutex with
    | none => none
    | some m =>
      let s := { s with uart_mutex := m }
      let s := { s with UART_CONTROL_STATUS_REG := INTERRUPT_DISABLE s.UART_CONTROL_STATUS_REG }
      match uart_read_nonblocking_loop max_length (max_length + 1)
          { ret := QUEUE_BUFFER_NO_ERROR, state := s, output_buffer := buf,
            bytes_read := bytes_read } with
      | none => none
      | some st =>
        let reg :=
          if interrupt_state ≠ 0 then INTERRUPT_ENABLE st.state.UART_CONTROL_STATUS_REG
          else st.state.UART_CONTROL_STATUS_REG
        some { ret := QUEUE_BUFFER_NO_ERROR
               state := { st.state with
                          UART_CONTROL_STATUS_REG := reg
                          uart_mutex := mutex_unlock st.state.uart_mutex }
               output_buffer := some st.output_buffer
               length := st.bytes_read }

/-- Function `uart_reveived_bytes`. -/
def uart_reveived_bytes (s : uart_t) : Nat :=
  s.m_received_bytes_count

/-- Function `uart_bytes_in_receive_queue`. -/
def uart_bytes_in_receive_queue (s : uart_t) : Nat :=
  s.rx_queue.count

/-- Function `uart_bytes_in_transmit_queue`. -/
def uart_bytes_in_transmit_queue (s : uart_t) : Nat :=
  s.tx_queue.count

/-- The array `uint8_t tx_data[] = "Hello, UART!"` of `uart_test`: 12 characters
and the terminating zero, `sizeof(tx_data) = 13`. -/
def tx_data : Nat → Nat :=
  fun i => [72, 101, 108, 108, 111, 44, 32, 85, 65, 82, 84, 33, 0].getD i 0

/-- Function `uart_test`, run with `fuel` passes allowed to the loop of
`uart_read_blocking`. The local array `rx_data` is uninitialised in C; the model
takes its initial bytes as the argument `rx_init`. `sizeof(tx_data)` is 13.
Result: the return value and the driver state at the `return`. -/
def uart_test (fuel : Nat) (rx_init : Nat → Nat) (s : uart_t) : Option (Bool × uart_t) :=
  let sizeof_tx_data := 13
  match uart_write_bytes s queue_ptr.rx (some tx_data) sizeof_tx_data with
  | none => none
  | some w1 =>
    if w1.ret ≠ QUEUE_BUFFER_NO_ERROR then some (false, w1.state) else
    let bytes_read := 1000
    match uart_read_nonblocking w1.state (some rx_init) bytes_read with
    | none => none
    | some r1 =>
      if r1.ret ≠ QUEUE_BUFFER_NO_ERROR then some (false, r1.state) else
      let bytes_read := r1.length
      if sizeof_tx_data ≠ bytes_read then some (false, r1.state) else
      match uart_write_bytes r1.state queue_ptr.rx (some tx_data) sizeof_tx_data with
      | none => none
      | some w2 =>
        if w2.ret ≠ QUEUE_BUFFER_NO_ERROR then some (false, w2.state) else
        match uart_read_blocking fuel w2.state r1.output_buffer sizeof_tx_data with
        | none => none
        | some r2 =>
          if r2.ret ≠ QUEUE_BUFFER_NO_ERROR then some (false, r2.state) else
          if sizeof_tx_data * 2 ≠ uart_reveived_bytes r2.state then some (false, r2.state) else
          match uart_write_bytes r2.state queue_ptr.rx (some tx_data) 1000 with
          | none => none
          | some w3 =>
            if w3.ret ≠ INPUT_ERROR then some (false, w3.state) else
            match uart_write_bytes w3.state queue_ptr.tx (some tx_data) sizeof_tx_data with
            | none => none
            | some w4 =>
              if w4.ret ≠ QUEUE_BUFFER_NO_ERROR then some (false, w4.state) else
              if uart_bytes_in_transmit_queue w4.state ≠ sizeof_tx_data then
                some (false, w4.state)
              else some (true, w4.state)

/-! ## Vocabulary of the properties -/

/-- The bytes held by a queue, oldest first: the `count` cells starting at
`head`, wrapping modulo `QUEUE_SIZE`. -/
def queue_t.contents (q : queue_t) : List Nat :=
  (List.range q.count).map fun i => q.data ((q.head + i) % QUEUE_SIZE)

/-- Bounds of the three counters as the code maintains them, together with the
relation between them: `tail` is wrapped lazily (at the start of the next
push), so it may rest at `QUEUE_SIZE`. -/
def queue_inv (q : queue_t) : Prop :=
  q.count ≤ QUEUE_SIZE ∧ q.head < QUEUE_SIZE ∧ q.tail ≤ QUEUE_SIZE ∧
    (q.head + q.count) % QUEUE_SIZE = q.tail % QUEUE_SIZE

instance (q : queue_t) : Decidable (queue_inv q) := by
  unfold queue_inv; infer_instance

/-- The bounds as the specification words them: `0 ≤ count ≤ N`, `0 ≤ head < N`,
`0 ≤ tail < N`. -/
def spec_bounds (q : queue_t) : Prop :=
  q.count ≤ QUEUE_SIZE ∧ q.head < QUEUE_SIZE ∧ q.tail < QUEUE_SIZE

instance (q : queue_t) : Decidable (spec_bounds q) := by
  unfold spec_bounds; infer_instance

/-- The bounds the code keeps: `0 ≤ count ≤ N`, `0 ≤ head < N`, `0 ≤ tail ≤ N`. -/
def code_bounds (q : queue_t) : Prop :=
  q.count ≤ QUEUE_SIZE ∧ q.head < QUEUE_SIZE ∧ q.tail ≤ QUEUE_SIZE

instance (q : queue_t) : Decidable (code_bounds q) := by
  unfold code_bounds; infer_instance

/-- Queues reachable from the zero-initialised queue by calls of `queue_push`
and `queue_pop` (any register value, any byte, any output pointer). -/
inductive reachable : queue_t → Prop
  | zero : reachable queue_zero
  | push (reg : Nat) (q : queue_t) (byte : Nat) :
      reachable q → reachable (queue_push reg q byte).queue
  | pop (reg : Nat) (q : queue_t) (byte : Option Nat) :
      reachable q → reachable (queue_pop reg q byte).queue

/-- One call on a queue: `queue_push(q, byte)`, or `queue_pop(q, p)` with `p` a
valid pointer to a byte currently holding `out`. -/
inductive queue_op where
  | push (byte : Nat)
  | pop (out : Nat)

/-- A call together with its return value and, for a pop, the byte found at
the output pointer afterwards. -/
structure queue_event where
  op : queue_op
  ret : uart_status_t
  byte : Nat

/-- Register, queue and the record of the calls after a run. -/
structure run_result where
  reg : Nat
  queue : queue_t
  events : List queue_event

/-- Perform the calls of `ops` one after the other. -/
def run_ops (reg : Nat) (q : queue_t) : List queue_op → run_result
  | [] => { reg := reg, queue := q, events := [] }
  | queue_op.push b :: ops =>
    let p := queue_push reg q b
    let r := run_ops p.reg p.queue ops
    { r with events := { op := queue_op.push b, ret := p.ret, byte := b } :: r.events }
  | queue_op.pop out :: ops =>
    let p := queue_pop reg q (some out)
    let r := run_ops p.reg p.queue ops
    { r with events := { op := queue_op.pop out, ret := p.ret, byte := p.byte.getD out } :: r.events }

/-- Bytes handed to `queue_push`, in call order. -/
def pushed_bytes : List queue_op → List Nat
  | [] => []
  | queue_op.push b :: ops => b :: pushed_bytes ops
  | queue_op.pop _ :: ops => pushed_bytes ops

/-- Bytes delivered by the pops that returned `QUEUE_BUFFER_NO_ERROR`, in call order. -/
def popped_bytes : List queue_event → List Nat
  | [] => []
  | e :: es =>
    match e.op with
    | queue_op.pop _ =>
      if e.ret = QUEUE_BUFFER_NO_ERROR then e.byte :: popped_bytes es else popped_bytes es
    | queue_op.push _ => popped_bytes es

/-- Number of pushes that returned `QUEUE_BUFFER_NO_ERROR`. -/
def successful_pushes : List queue_event → Nat
  | [] => 0
  | e :: es =>
    match e.op with
    | queue_op.push _ =>
      if e.ret = QUEUE_BUFFER_NO_ERROR then successful_pushes es + 1 else successful_pushes es
    | queue_op.pop _ => successful_pushes es

/-- Number of pops that returned `QUEUE_BUFFER_NO_ERROR`. -/
def successful_pops : List queue_event → Nat
  | [] => 0
  | e :: es =>
    match e.op with
    | queue_op.pop _ =>
      if e.ret = QUEUE_BUFFER_NO_ERROR then successful_pops es + 1 else successful_pops es
    | queue_op.push _ => successful_pops es

/-- Occupancy of an ideal unbounded FIFO that starts with `n` bytes, after the
calls of `ops`: a push adds one byte, a pop removes one if there is one. -/
def occupancy (n : Nat) : List queue_op → Nat
  | [] => n
  | queue_op.push _ :: ops => occupancy (n + 1) ops
  | queue_op.pop _ :: ops => occupancy (n - 1) ops

/-- The first `n` bytes of a buffer. -/
def buffer_bytes (buf : Nat → Nat) (n : Nat) : List Nat :=
  (List.range n).map buf

/-- A call of one of the API functions other than `uart_init`, with its arguments
(`fuel` bounds the passes of the loop of `uart_read_blocking`). -/
inductive api_call where
  | write_bytes (queue : queue_ptr) (data : Option (Nat → Nat)) (length : Nat)
  | read_blocking (fuel : Nat) (output_buffer : Option (Nat → Nat)) (length : Nat)
  | read_nonblocking (output_buffer : Option (Nat → Nat)) (max_length : Nat)
  | reveived_bytes
  | bytes_in_receive_queue
  | bytes_in_transmit_queue

/-- The driver state after one API call; `none` when the call does not return. -/
def run_call (s : uart_t) : api_call → Option uart_t
  | api_call.write_bytes queue data length =>
    (uart_write_bytes s queue data length).map fun r => r.state
  | api_call.read_blocking fuel output_buffer length =>
    (uart_read_blocking fuel s output_buffer length).map fun r => r.state
  | api_call.read_nonblocking output_buffer max_length =>
    (uart_read_nonblocking s output_buffer max_length).map fun r => r.state
  | api_call.reveived_bytes => some s
  | api_call.bytes_in_receive_queue => some s
  | api_call.bytes_in_transmit_queue => some s

/-- The driver state after a sequence of API calls, one after the other. -/
def run_calls (s : uart_t) : List api_call → Option uart_t
  | [] => some s
  | c :: cs =>
    match run_call s c with
    | none => none
    | some s2 => run_calls s2 cs

/-! ## Concrete inputs -/

/-- An initialised driver whose transmit queue holds the byte 65, at the moment
the device signals room for a byte to send: status bits 1, 13, 14, 15 set. -/
def tx_pending : uart_t :=
  { rx_queue := queue_zero, tx_queue := (queue_push 0 queue_zero 65).queue,
    m_is_initialised := true, m_received_bytes_count := 0, uart_mutex := { locked := 0 },
    UART_CONTROL_STATUS_REG := 0xE002, UART_DATA_REG := 0 }

/-- An initialised driver that has received 4294967295 bytes, at the moment the
device signals one more received byte (66): status bits 0, 13, 14, 15 set. -/
def counter_at_max : uart_t :=
  { rx_queue := queue_zero, tx_queue := queue_zero, m_is_initialised := true,
    m_received_bytes_count := 4294967295, uart_mutex := { locked := 0 },
    UART_CONTROL_STATUS_REG := 0xE001, UART_DATA_REG := 66 }


/-- Two pushes followed by three pops. -/
def sample_ops : List queue_op :=
  [queue_op.push 1, queue_op.push 2, queue_op.pop 0, queue_op.pop 0, queue_op.pop 0]

/-- A full queue: all 256 cells valid, `tail` resting at `QUEUE_SIZE`. -/
def full_queue : queue_t :=
  { data := fun i => i % 7, head := 0, tail := 256, count := 256 }

/-- A run of 256 pushes of the byte 0. -/
def fill_ops : List queue_op :=
  List.replicate 256 (queue_op.push 0)

/-- Static storage and registers before `uart_init`: everything zero. -/
def power_on : uart_t :=
  { rx_queue := queue_zero, tx_queue := queue_zero, m_is_initialised := false,
    m_received_bytes_count := 0, uart_mutex := { locked := 0 },
    UART_CONTROL_STATUS_REG := 0, UART_DATA_REG := 0 }

/-- A caller buffer filled with the byte 170. -/
def rx_data : Nat → Nat :=
  fun _ => 170

/-- The driver after `uart_init` and one interrupt in which the device
delivered the byte 65: the receive queue holds one byte. -/
def after_one_rx : uart_t :=
  uart_interrupt_handler
    { uart_init power_on with UART_CONTROL_STATUS_REG := 0xE001, UART_DATA_REG := 65 }

/-! ## Lemmas on `queue_push` and `queue_pop` -/

theorem queue_push_ret_full (reg : Nat) (q : queue_t) (b : Nat) (h : ¬ q.count < QUEUE_SIZE) :
    (queue_push reg q b).ret = QUEUE_BUFFER_OVERFLOW ∧ (queue_push reg q b).queue = q := by
  simp [queue_push, h]

theorem queue_push_ok (reg : Nat) (q : queue_t) (b : Nat) (hq : queue_inv q)
    (h : q.count < QUEUE_SIZE) :
    (queue_push reg q b).ret = QUEUE_BUFFER_NO_ERROR ∧
      queue_inv (queue_push reg q b).queue ∧
      (queue_push reg q b).queue.contents = q.contents ++ [b] ∧
      (queue_push reg q b).queue.count = q.count + 1 := by
  obtain ⟨_, hh, ht, hrel⟩ := hq
  simp only [QUEUE_SIZE] at *
  have hq2 : (queue_push reg q b).queue =
      { q with data := Function.update q.data ((q.head + q.count) % 256) b
               tail := (q.head + q.count) % 256 + 1
               count := q.count + 1 } := by
    have e1 : (if 256 ≤ q.tail then 0 else q.tail) = (q.head + q.count) % 256 := by
      split <;> omega
    have e2 : ((q.head + q.count) % 256 + 1) % 4294967296 = (q.head + q.count) % 256 + 1 := by
      omega
    have e3 : (q.count + 1) % 4294967296 = q.count + 1 := by omega
    simp [queue_push, h, QUEUE_SIZE, e1, e2, e3]
  refine ⟨by simp [queue_push, h, QUEUE_SIZE], ?_, ?_, ?_⟩
  · rw [hq2]; simp only [queue_inv, QUEUE_SIZE]; omega
  · rw [hq2]
    simp only [queue_t.contents, QUEUE_SIZE, List.range_succ, List.map_append, List.map_cons,
      List.map_nil, Function.update_same]
    congr 1
    apply List.map_congr_left
    intro i hi
    have hi2 : i < q.count := List.mem_range.mp hi
    have hne : (q.head + i) % 256 ≠ (q.head + q.count) % 256 := by omega
    simp [Function.update_noteq hne]
  · rw [hq2]

theorem queue_pop_ret_empty (reg : Nat) (q : queue_t) (v : Nat) (h : q.count = 0) :
    (queue_pop reg q (some v)).ret = QUEUE_BUFFER_EMPTY ∧
      (queue_pop reg q (some v)).queue = q ∧ (queue_pop reg q (some v)).byte = some v := by
  simp [queue_pop, h]

theorem queue_pop_ok (reg : Nat) (q : queue_t) (v : Nat) (hq : queue_inv q) (h : 0 < q.count) :
    (queue_pop reg q (some v)).ret = QUEUE_BUFFER_NO_ERROR ∧
      queue_inv (queue_pop reg q (some v)).queue ∧
      (queue_pop reg q (some v)).byte = some (q.data q.head) ∧
      q.contents = q.data q.head :: (queue_pop reg q (some v)).queue.contents ∧
      (queue_pop reg q (some v)).queue.count + 1 = q.count := by
  obtain ⟨_, hh, ht, hrel⟩ := hq
  simp only [QUEUE_SIZE] at *
  have hq2 : (queue_pop reg q (some v)).queue =
      { q with head := (q.head + 1) % 256, count := q.count - 1 } := by
    have e1 : (if 256 ≤ (q.head + 1) % 4294967296 then 0 else (q.head + 1) % 4294967296)
        = (q.head + 1) % 256 := by
      split <;> omega
    simp [queue_pop, h, QUEUE_SIZE, e1]
  refine ⟨by simp [queue_pop, h], ?_, by simp [queue_pop, h], ?_, ?_⟩
  · rw [hq2]; simp only [queue_inv, QUEUE_SIZE]; omega
  · rw [hq2]
    obtain ⟨c, hc⟩ : ∃ c, q.count = c + 1 := ⟨q.count - 1, by omega⟩
    simp only [queue_t.contents, QUEUE_SIZE, hc, List.range_succ_eq_map, List.map_cons,
      List.map_map, Nat.add_sub_cancel]
    congr 1
    · congr 1; omega
    · apply List.map_congr_left
      intro i _
      simp only [Function.comp]
      congr 1; omega
  · rw [hq2]; show q.count - 1 + 1 = q.count; omega

theorem queue_pop_null (reg : Nat) (q : queue_t) :
    (queue_pop reg q none).ret = INPUT_ERROR ∧ (queue_pop reg q none).queue = q ∧
      (queue_pop reg q none).byte = none := by
  simp [queue_pop]

theorem queue_push_inv (reg : Nat) (q : queue_t) (b : Nat) (hq : queue_inv q) :
    queue_inv (queue_push reg q b).queue := by
  by_cases h : q.count < QUEUE_SIZE
  · exact (queue_push_ok reg q b hq h).2.1
  · rw [(queue_push_ret_full reg q b h).2]; exact hq

theorem queue_pop_inv (reg : Nat) (q : queue_t) (byte : Option Nat) (hq : queue_inv q) :
    queue_inv (queue_pop reg q byte).queue := by
  cases byte with
  | none => rw [(queue_pop_null reg q).2.1]; exact hq
  | some v =>
    by_cases h : 0 < q.count
    · exact (queue_pop_ok reg q v hq h).2.1
    · rw [(queue_pop_ret_empty reg q v (by omega)).2.1]; exact hq

theorem queue_zero_inv : queue_inv queue_zero := by decide

theorem reachable_inv (q : queue_t) (h : reachable q) : queue_inv q := by
  induction h with
  | zero => exact queue_zero_inv
  | push reg q b _ ih => exact queue_push_inv reg q b ih
  | pop reg q byte _ ih => exact queue_pop_inv reg q byte ih

/-! ## Runs of pushes and pops -/

theorem run_ops_spec (ops : List queue_op) : ∀ (reg : Nat) (q : queue_t), queue_inv q →
    (∀ k, k ≤ ops.length → occupancy q.count (ops.take k) ≤ QUEUE_SIZE) →
    queue_inv (run_ops reg q ops).queue ∧
    popped_bytes (run_ops reg q ops).events ++ (run_ops reg q ops).queue.contents
      = q.contents ++ pushed_bytes ops ∧
    (run_ops reg q ops).queue.count = occupancy q.count ops ∧
    (run_ops reg q ops).queue.count + successful_pops (run_ops reg q ops).events
      = q.count + successful_pushes (run_ops reg q ops).events ∧
    successful_pushes (run_ops reg q ops).events = (pushed_bytes ops).length := by
  induction ops with
  | nil =>
    intro reg q hq _
    simp [run_ops, popped_bytes, pushed_bytes, occupancy, successful_pops, successful_pushes, hq]
  | cons op ops ih =>
    intro reg q hq hocc
    cases op with
    | push b =>
      have h1 : q.count < QUEUE_SIZE := by
        have := hocc 1 (by simp)
        simp only [List.take_succ_cons, List.take_zero, occupancy] at this
        omega
      obtain ⟨hret, hinv, hcont, hcnt⟩ := queue_push_ok reg q b hq h1
      have hocc2 : ∀ k, k ≤ ops.length →
          occupancy (queue_push reg q b).queue.count (ops.take k) ≤ QUEUE_SIZE := by
        intro k hk
        have := hocc (k + 1) (by simpa using hk)
        simpa only [List.take_succ_cons, occupancy, hcnt] using this
      obtain ⟨i1, i2, i3, i4, i5⟩ := ih (queue_push reg q b).reg _ hinv hocc2
      refine ⟨i1, ?_, ?_, ?_, ?_⟩
      · simp only [run_ops, popped_bytes, pushed_bytes]
        rw [i2, hcont]; simp
      · simp only [run_ops, occupancy]; rw [i3, hcnt]
      · simp only [run_ops, successful_pops, successful_pushes, hret, if_true]
        rw [hcnt] at i4; omega
      · simp only [run_ops, successful_pushes, pushed_bytes, hret, if_true, List.length_cons]
        omega
    | pop out =>
      by_cases h0 : 0 < q.count
      · obtain ⟨hret, hinv, hbyte, hcont, hcnt⟩ := queue_pop_ok reg q out hq h0
        have hocc2 : ∀ k, k ≤ ops.length →
            occupancy (queue_pop reg q (some out)).queue.count (ops.take k) ≤ QUEUE_SIZE := by
          intro k hk
          have := hocc (k + 1) (by simpa using hk)
          have e : (queue_pop reg q (some out)).queue.count = q.count - 1 := by omega
          simpa only [List.take_succ_cons, occupancy, e] using this
        obtain ⟨i1, i2, i3, i4, i5⟩ := ih (queue_pop reg q (some out)).reg _ hinv hocc2
        refine ⟨i1, ?_, ?_, ?_, ?_⟩
        · simp only [run_ops, popped_bytes, pushed_bytes, hret, if_true, hbyte, Option.getD_some]
          rw [hcont, List.cons_append, List.cons_append, i2]
        · simp only [run_ops, occupancy]; rw [i3]; congr 1; omega
        · simp only [run_ops, successful_pops, successful_pushes, hret, if_true]
          omega
        · simpa only [run_ops, successful_pushes, pushed_bytes] using i5
      · obtain ⟨hret, hqe, hbyte⟩ := queue_pop_ret_empty reg q out (by omega)
        have hocc2 : ∀ k, k ≤ ops.length →
            occupancy (queue_pop reg q (some out)).queue.count (ops.take k) ≤ QUEUE_SIZE := by
          intro k hk
          have := hocc (k + 1) (by simpa using hk)
          have e : q.count - 1 = q.count := by omega
          simpa only [List.take_succ_cons, occupancy, e, hqe] using this
        obtain ⟨i1, i2, i3, i4, i5⟩ :=
          ih (queue_pop reg q (some out)).reg _ (by rw [hqe]; exact hq) hocc2
        have hne : ¬ (QUEUE_BUFFER_EMPTY = QUEUE_BUFFER_NO_ERROR) := by decide
        refine ⟨i1, ?_, ?_, ?_, ?_⟩
        · simp only [run_ops, popped_bytes, pushed_bytes, hret, hne, if_false]
          rw [i2, hqe]
        · simp only [run_ops, occupancy]; rw [i3, hqe]; congr 1; omega
        · simp only [run_ops, successful_pops, successful_pushes, hret, hne, if_false]
          rw [hqe] at i4 ⊢; exact i4
        · simpa only [run_ops, successful_pushes, pushed_bytes] using i5

theorem run_ops_reachable (ops : List queue_op) :
    ∀ (reg : Nat) (q : queue_t), reachable q → reachable (run_ops reg q ops).queue := by
  induction ops with
  | nil => intro reg q hq; exact hq
  | cons op ops ih =>
    intro reg q hq
    cases op with
    | push b => exact ih _ _ (reachable.push reg q b hq)
    | pop out => exact ih _ _ (reachable.pop reg q (some out) hq)

/-! ## Lemmas on the API functions -/

theorem uart_write_bytes_loop_no_error (d : Nat → Nat) (length fuel i reg : Nat) (q : queue_t) :
    uart_write_bytes_loop d length (fuel + 1) i
        { ret := QUEUE_BUFFER_NO_ERROR, reg := reg, queue := q }
      = some { ret := QUEUE_BUFFER_NO_ERROR, reg := reg, queue := q } := by
  simp [uart_write_bytes_loop, uart_status_t.toNat]

theorem uart_t.queue_reg (s : uart_t) (x : Nat) (p : queue_ptr) :
    uart_t.queue { s with UART_CONTROL_STATUS_REG := x } p = s.queue p := by
  cases p <;> rfl

theorem uart_t.setQueue_queue (s : uart_t) (p : queue_ptr) : s.setQueue p (s.queue p) = s := by
  cases p <;> rfl

/-- What `uart_write_bytes` does when the lock is free: it returns, with
`QUEUE_BUFFER_NO_ERROR` when the admission test passes and `INPUT_ERROR`
otherwise, and in both cases the queues, the lock, the counter, the flag and
the data register are as before. -/
theorem uart_write_bytes_free (s : uart_t) (p : queue_ptr) (data : Option (Nat → Nat))
    (length : Nat) (hl : s.uart_mutex.locked = 0) :
    ∃ r, uart_write_bytes s p data length = some r ∧
      r.ret = (if data.isSome ∧ (length + (s.queue p).count) % 2 ^ 32 ≤ QUEUE_SIZE
        then QUEUE_BUFFER_NO_ERROR else INPUT_ERROR) ∧
      r.state.rx_queue = s.rx_queue ∧ r.state.tx_queue = s.tx_queue ∧
      r.state.uart_mutex.locked = 0 ∧
      r.state.m_received_bytes_count = s.m_received_bytes_count ∧
      r.state.m_is_initialised = s.m_is_initialised ∧
      r.state.UART_DATA_REG = s.UART_DATA_REG := by
  cases data with
  | none =>
    simp only [uart_write_bytes, Option.map_some']
    refine ⟨_, rfl, ?_⟩
    split <;> simp [hl]
  | some d =>
    by_cases hc : (length + (s.queue p).count) % 2 ^ 32 ≤ QUEUE_SIZE
    · simp only [uart_write_bytes, uart_t.queue_reg, hc, if_true, mutex_lock, hl, ne_eq, not_true_eq_false,
        if_false, uart_write_bytes_loop_no_error, Option.map_some']
      refine ⟨_, rfl, ?_⟩
      cases p <;> split <;> simp [hc, uart_t.setQueue, uart_t.queue, mutex_unlock]
    · simp only [uart_write_bytes, uart_t.queue_reg, hc, if_false, Option.map_some']
      refine ⟨_, rfl, ?_⟩
      split <;> simp [hc, hl]

/-- Whenever `uart_write_bytes` returns, both queues are as before. -/
theorem uart_write_bytes_queues (s : uart_t) (p : queue_ptr) (data : Option (Nat → Nat))
    (length : Nat) (r : write_result) (h : uart_write_bytes s p data length = some r) :
    r.state.rx_queue = s.rx_queue ∧ r.state.tx_queue = s.tx_queue := by
  by_cases hl : s.uart_mutex.locked = 0
  · obtain ⟨r2, h2, _, h3, h4, _⟩ := uart_write_bytes_free s p data length hl
    rw [h] at h2
    cases h2
    exact ⟨h3, h4⟩
  · cases data with
    | none =>
      simp only [uart_write_bytes, Option.map_some', Option.some.injEq] at h
      subst h
      split <;> simp
    | some d =>
      by_cases hc : (length + (s.queue p).count) % 2 ^ 32 ≤ QUEUE_SIZE
      · simp only [uart_write_bytes, uart_t.queue_reg, hc, if_true, mutex_lock, ne_eq, hl,
          not_false_eq_true, Option.map_none', reduceCtorEq] at h
      · simp only [uart_write_bytes, uart_t.queue_reg, hc, if_false, Option.map_some',
          Option.some.injEq] at h
        subst h
        split <;> simp

theorem buffer_bytes_update_same (buf : Nat → Nat) (n b : Nat) :
    buffer_bytes (Function.update buf n b) n = buffer_bytes buf n := by
  apply List.map_congr_left
  intro i hi
  have : i ≠ n := by have := List.mem_range.mp hi; omega
  simp [Function.update_noteq this]

theorem buffer_bytes_update_succ (buf : Nat → Nat) (n b : Nat) :
    buffer_bytes (Function.update buf n b) (n + 1) = buffer_bytes buf n ++ [b] := by
  have h := buffer_bytes_update_same buf n b
  simp only [buffer_bytes] at h ⊢
  rw [List.range_succ, List.map_append, h]
  simp

theorem uart_read_nonblocking_loop_step (max_length fuel : Nat) (st : read_loop_state) :
    uart_read_nonblocking_loop max_length (fuel + 1) st =
      if st.bytes_read < max_length then
        if (queue_pop st.state.UART_CONTROL_STATUS_REG st.state.rx_queue
            (some (st.output_buffer st.bytes_read))).ret = QUEUE_BUFFER_NO_ERROR then
          uart_read_nonblocking_loop max_length fuel
            { ret := st.ret
              state := { st.state with
                rx_queue := (queue_pop st.state.UART_CONTROL_STATUS_REG st.state.rx_queue
                  (some (st.output_buffer st.bytes_read))).queue
                UART_CONTROL_STATUS_REG := (queue_pop st.state.UART_CONTROL_STATUS_REG
                  st.state.rx_queue (some (st.output_buffer st.bytes_read))).reg }
              output_buffer := Function.update st.output_buffer st.bytes_read
                ((queue_pop st.state.UART_CONTROL_STATUS_REG st.state.rx_queue
                  (some (st.output_buffer st.bytes_read))).byte.getD
                    (st.output_buffer st.bytes_read))
              bytes_read := st.bytes_read + 1 }
        else
          some
            { ret := st.ret
              state := { st.state with
                rx_queue := (queue_pop st.state.UART_CONTROL_STATUS_REG st.state.rx_queue
                  (some (st.output_buffer st.bytes_read))).queue
                UART_CONTROL_STATUS_REG := (queue_pop st.state.UART_CONTROL_STATUS_REG
                  st.state.rx_queue (some (st.output_buffer st.bytes_read))).reg }
              output_buffer := Function.update st.output_buffer st.bytes_read
                ((queue_pop st.state.UART_CONTROL_STATUS_REG st.state.rx_queue
                  (some (st.output_buffer st.bytes_read))).byte.getD
                    (st.output_buffer st.bytes_read))
              bytes_read := st.bytes_read }
      else some st := rfl

/-- The loop of `uart_read_nonblocking` ends within `max_length - bytes_read + 1`
passes, having moved the `min (max_length - bytes_read) count` oldest bytes of
the receive queue to the buffer, behind the bytes already there. -/
theorem uart_read_nonblocking_loop_spec (max_length : Nat) :
    ∀ (fuel : Nat) (st : read_loop_state),
      queue_inv st.state.rx_queue → st.bytes_read ≤ max_length →
      max_length - st.bytes_read < fuel →
      ∃ st2, uart_read_nonblocking_loop max_length fuel st = some st2 ∧
        st2.bytes_read
          = st.bytes_read + min (max_length - st.bytes_read) st.state.rx_queue.count ∧
        buffer_bytes st2.output_buffer st2.bytes_read
          = buffer_bytes st.output_buffer st.bytes_read ++
            st.state.rx_queue.contents.take
              (min (max_length - st.bytes_read) st.state.rx_queue.count) ∧
        st2.state.rx_queue.contents
          = st.state.rx_queue.contents.drop
              (min (max_length - st.bytes_read) st.state.rx_queue.count) ∧
        st2.state.rx_queue.count
          = st.state.rx_queue.count
              - min (max_length - st.bytes_read) st.state.rx_queue.count ∧
        queue_inv st2.state.rx_queue ∧
        st2.state.tx_queue = st.state.tx_queue ∧
        st2.state.uart_mutex = st.state.uart_mutex ∧
        st2.state.m_received_bytes_count = st.state.m_received_bytes_count ∧
        st2.state.m_is_initialised = st.state.m_is_initialised ∧
        st2.state.UART_DATA_REG = st.state.UART_DATA_REG ∧
        (∀ i, st2.bytes_read ≤ i → st2.output_buffer i = st.output_buffer i) := by
  intro fuel
  induction fuel with
  | zero => intro st _ _ h; omega
  | succ fuel ih =>
    intro st hinv hle hfuel
    rw [uart_read_nonblocking_loop_step]
    by_cases hlt : st.bytes_read < max_length
    · rw [if_pos hlt]
      by_cases h0 : 0 < st.state.rx_queue.count
      · obtain ⟨hret, hinv2, hbyte, hcont, hcnt⟩ :=
          queue_pop_ok st.state.UART_CONTROL_STATUS_REG st.state.rx_queue
            (st.output_buffer st.bytes_read) hinv h0
        rw [if_pos hret]
        obtain ⟨st2, e, i1, i2, i3, i4, i5, i6, i7, i8, i9, i10, i11⟩ := ih
          { ret := st.ret
            state := { st.state with
              rx_queue := (queue_pop st.state.UART_CONTROL_STATUS_REG st.state.rx_queue
                (some (st.output_buffer st.bytes_read))).queue
              UART_CONTROL_STATUS_REG := (queue_pop st.state.UART_CONTROL_STATUS_REG
                st.state.rx_queue (some (st.output_buffer st.bytes_read))).reg }
            output_buffer := Function.update st.output_buffer st.bytes_read
              ((queue_pop st.state.UART_CONTROL_STATUS_REG st.state.rx_queue
                (some (st.output_buffer st.bytes_read))).byte.getD
                  (st.output_buffer st.bytes_read))
            bytes_read := st.bytes_read + 1 }
          hinv2
          (show st.bytes_read + 1 ≤ max_length by omega)
          (show max_length - (st.bytes_read + 1) < fuel by omega)
        simp only at i1 i2 i3 i4 i5 i6 i7 i8 i9 i10 i11
        have hk : min (max_length - st.bytes_read) st.state.rx_queue.count
            = min (max_length - (st.bytes_read + 1))
                (queue_pop st.state.UART_CONTROL_STATUS_REG st.state.rx_queue
                  (some (st.output_buffer st.bytes_read))).queue.count + 1 := by omega
        refine ⟨st2, e, ?_, ?_, ?_, ?_, i5, i6, i7, i8, i9, i10, ?_⟩
        rotate_left 4
        · intro i hi
          have hne : i ≠ st.bytes_read := by omega
          rw [i11 i hi, Function.update_noteq hne]
        · rw [i1, hk]; omega
        · rw [i2, hk, hbyte, Option.getD_some, buffer_bytes_update_succ, hcont,
            List.take_succ_cons, List.append_assoc, List.singleton_append]
        · rw [i3, hk, hcont, List.drop_succ_cons]
        · rw [i4, hk]; omega
      · have hc0 : st.state.rx_queue.count = 0 := by omega
        obtain ⟨hret, hq, hbyte⟩ :=
          queue_pop_ret_empty st.state.UART_CONTROL_STATUS_REG st.state.rx_queue
            (st.output_buffer st.bytes_read) hc0
        have hne : ¬ (QUEUE_BUFFER_EMPTY = QUEUE_BUFFER_NO_ERROR) := by decide
        rw [hret, if_neg hne, hq, hbyte]
        refine ⟨_, rfl, ?_⟩
        simp [hc0, hinv]
    · rw [if_neg hlt]
      refine ⟨st, rfl, ?_⟩
      have : max_length - st.bytes_read = 0 := by omega
      simp [this, hinv]

/-- What `uart_read_nonblocking` does with a non-null buffer when the lock is
free: it returns `QUEUE_BUFFER_NO_ERROR`, having moved the `min max_length count`
oldest bytes of the receive queue to the front of the buffer. -/
theorem uart_read_nonblocking_free (s : uart_t) (buf : Nat → Nat) (m : Nat)
    (hq : queue_inv s.rx_queue) (hl : s.uart_mutex.locked = 0) :
    ∃ r buf2, uart_read_nonblocking s (some buf) m = some r ∧
      r.ret = QUEUE_BUFFER_NO_ERROR ∧
      r.length = min m s.rx_queue.count ∧
      r.output_buffer = some buf2 ∧
      buffer_bytes buf2 (min m s.rx_queue.count)
        = s.rx_queue.contents.take (min m s.rx_queue.count) ∧
      r.state.rx_queue.contents = s.rx_queue.contents.drop (min m s.rx_queue.count) ∧
      r.state.rx_queue.count = s.rx_queue.count - min m s.rx_queue.count ∧
      queue_inv r.state.rx_queue ∧
      r.state.tx_queue = s.tx_queue ∧
      r.state.uart_mutex.locked = 0 ∧
      r.state.m_received_bytes_count = s.m_received_bytes_count ∧
      r.state.m_is_initialised = s.m_is_initialised ∧
      r.state.UART_DATA_REG = s.UART_DATA_REG ∧
      (∀ i, min m s.rx_queue.count ≤ i → buf2 i = buf i) := by
  obtain ⟨st2, e, i1, i2, i3, i4, i5, i6, i7, i8, i9, i10, i11⟩ :=
    uart_read_nonblocking_loop_spec m (m + 1)
      { ret := QUEUE_BUFFER_NO_ERROR
        state := { s with
          uart_mutex := { locked := 1 }
          UART_CONTROL_STATUS_REG :=
            INTERRUPT_DISABLE (IS_INTERRUPT_ENABLED s.UART_CONTROL_STATUS_REG).2 }
        output_buffer := buf
        bytes_read := 0 }
      hq (Nat.zero_le _) (by simp)
  simp only [Nat.sub_zero, Nat.zero_add, buffer_bytes, List.range_zero, List.map_nil,
    List.nil_append] at i1 i2 i3 i4 i5 i6 i7 i8 i9 i10 i11
  simp only [uart_read_nonblocking, mutex_lock, hl, ne_eq, not_true_eq_false, if_false]
  rw [e]
  rw [i1] at i2 i11
  exact ⟨_, st2.output_buffer, rfl, rfl, i1, rfl, i2, i3, i4, i5, i6, rfl, i8, i9, i10, i11⟩

theorem uart_read_blocking_loop_step (length interrupt_state fuel : Nat) (st : read_loop_state)
    (hl : st.state.uart_mutex.locked = 0) (hlt : st.bytes_read < length) :
    uart_read_blocking_loop length interrupt_state (fuel + 1) st =
      uart_read_blocking_loop length interrupt_state fuel
        (uart_read_blocking_pass interrupt_state st { locked := 1 }) := by
  simp only [uart_read_blocking_loop, hlt, if_true, mutex_lock, hl, ne_eq, not_true_eq_false,
    if_false]

theorem uart_read_blocking_loop_done (length interrupt_state fuel : Nat) (st : read_loop_state)
    (hlt : ¬ st.bytes_read < length) :
    uart_read_blocking_loop length interrupt_state (fuel + 1) st = some st := by
  simp only [uart_read_blocking_loop, hlt, if_false]

/-- A pass of the loop of `uart_read_blocking` over a non-empty receive queue
moves the oldest byte to `output_buffer[bytes_read]`, counts it, and leaves `ret`
at 1, which is `QUEUE_BUFFER_OVERFLOW`. -/
theorem uart_read_blocking_pass_ok (interrupt_state : Nat) (st : read_loop_state) (m : mutex_t)
    (hq : queue_inv st.state.rx_queue) (h0 : 0 < st.state.rx_queue.count) :
    (uart_read_blocking_pass interrupt_state st m).ret = QUEUE_BUFFER_OVERFLOW ∧
    (uart_read_blocking_pass interrupt_state st m).bytes_read = st.bytes_read + 1 ∧
    (uart_read_blocking_pass interrupt_state st m).output_buffer
      = Function.update st.output_buffer st.bytes_read
          (st.state.rx_queue.data st.state.rx_queue.head) ∧
    st.state.rx_queue.contents = st.state.rx_queue.data st.state.rx_queue.head ::
      (uart_read_blocking_pass interrupt_state st m).state.rx_queue.contents ∧
    (uart_read_blocking_pass interrupt_state st m).state.rx_queue.count + 1
      = st.state.rx_queue.count ∧
    queue_inv (uart_read_blocking_pass interrupt_state st m).state.rx_queue ∧
    (uart_read_blocking_pass interrupt_state st m).state.tx_queue = st.state.tx_queue ∧
    (uart_read_blocking_pass interrupt_state st m).state.uart_mutex.locked = 0 ∧
    (uart_read_blocking_pass interrupt_state st m).state.m_received_bytes_count
      = st.state.m_received_bytes_count ∧
    (uart_read_blocking_pass interrupt_state st m).state.m_is_initialised
      = st.state.m_is_initialised ∧
    (uart_read_blocking_pass interrupt_state st m).state.UART_DATA_REG
      = st.state.UART_DATA_REG := by
  obtain ⟨hret, hinv2, hbyte, hcont, hcnt⟩ :=
    queue_pop_ok (INTERRUPT_DISABLE st.state.UART_CONTROL_STATUS_REG) st.state.rx_queue
      (st.output_buffer st.bytes_read) hq h0
  refine ⟨?_, ?_, ?_, hcont, hcnt, hinv2, rfl, rfl, rfl, rfl, rfl⟩
  · simp [uart_read_blocking_pass, hret, uart_status_t.fromNat]
  · simp [uart_read_blocking_pass, hret, uart_status_t.fromNat, uart_status_t.toNat]
  · simp [uart_read_blocking_pass, hbyte]

/-- With the lock free and at least `length - bytes_read` bytes in the receive
queue, the loop of `uart_read_blocking` ends after `length - bytes_read` passes
with `bytes_read = length`, the oldest bytes moved to the buffer in order. -/
theorem uart_read_blocking_loop_spec (length interrupt_state : Nat) :
    ∀ (fuel : Nat) (st : read_loop_state),
      queue_inv st.state.rx_queue → st.state.uart_mutex.locked = 0 →
      st.bytes_read ≤ length → length - st.bytes_read ≤ st.state.rx_queue.count →
      length - st.bytes_read < fuel →
      ∃ st2, uart_read_blocking_loop length interrupt_state fuel st = some st2 ∧
        st2.bytes_read = length ∧
        st2.ret = (if st.bytes_read < length then QUEUE_BUFFER_OVERFLOW else st.ret) ∧
        buffer_bytes st2.output_buffer length
          = buffer_bytes st.output_buffer st.bytes_read ++
            st.state.rx_queue.contents.take (length - st.bytes_read) ∧
        st2.state.rx_queue.contents
          = st.state.rx_queue.contents.drop (length - st.bytes_read) ∧
        st2.state.rx_queue.count = st.state.rx_queue.count - (length - st.bytes_read) ∧
        queue_inv st2.state.rx_queue ∧
        st2.state.tx_queue = st.state.tx_queue ∧
        st2.state.uart_mutex.locked = 0 ∧
        st2.state.m_received_bytes_count = st.state.m_received_bytes_count ∧
        st2.state.m_is_initialised = st.state.m_is_initialised ∧
        st2.state.UART_DATA_REG = st.state.UART_DATA_REG ∧
        (∀ i, length ≤ i → st2.output_buffer i = st.output_buffer i) := by
  intro fuel
  induction fuel with
  | zero => intro st _ _ _ _ h; omega
  | succ fuel ih =>
    intro st hinv hl hle hcount hfuel
    by_cases hlt : st.bytes_read < length
    · rw [uart_read_blocking_loop_step length interrupt_state fuel st hl hlt]
      obtain ⟨p1, p2, p3, p4, p5, p6, p7, p8, p9, p10, p11⟩ :=
        uart_read_blocking_pass_ok interrupt_state st { locked := 1 } hinv (by omega)
      obtain ⟨st2, e, i1, i2, i3, i4, i5, i6, i7, i8, i9, i10, i11, i12⟩ :=
        ih (uart_read_blocking_pass interrupt_state st { locked := 1 }) p6 p8
          (by omega) (by omega) (by omega)
      have hk : length - st.bytes_read = (length - (st.bytes_read + 1)) + 1 := by omega
      refine ⟨st2, e, i1, ?_, ?_, ?_, ?_, i6, i7.trans p7, i8, i9.trans p9, i10.trans p10,
        i11.trans p11, ?_⟩
      rotate_left 4
      · intro i hi
        have hne : i ≠ st.bytes_read := by omega
        rw [i12 i hi, p3, Function.update_noteq hne]
      · rw [i2, if_pos hlt, p1]; simp
      · rw [i3, p2, p3, buffer_bytes_update_succ, hk, p4, List.take_succ_cons,
          List.append_assoc, List.singleton_append]
      · rw [i4, p2, hk, p4, List.drop_succ_cons]
      · rw [i5, p2]; omega
    · rw [uart_read_blocking_loop_done length interrupt_state fuel st hlt]
      have h0 : length - st.bytes_read = 0 := by omega
      have hb : st.bytes_read = length := by omega
      refine ⟨st, rfl, hb, by rw [if_neg hlt], ?_, ?_, ?_, hinv, rfl, hl, rfl, rfl, rfl,
        fun _ _ => rfl⟩
      · rw [h0, hb]; simp
      · rw [h0]; simp
      · rw [h0]; simp

/-- More fuel does not change what the loop of `uart_read_blocking` returns. -/
theorem uart_read_blocking_loop_mono (length interrupt_state : Nat) :
    ∀ (fuel : Nat) (st r : read_loop_state),
      uart_read_blocking_loop length interrupt_state fuel st = some r →
      ∀ fuel2, fuel ≤ fuel2 → uart_read_blocking_loop length interrupt_state fuel2 st = some r := by
  intro fuel
  induction fuel with
  | zero => intro st r h; simp [uart_read_blocking_loop] at h
  | succ fuel ih =>
    intro st r h fuel2 hle
    obtain ⟨f, rfl⟩ : ∃ f, fuel2 = f + 1 := ⟨fuel2 - 1, by omega⟩
    simp only [uart_read_blocking_loop] at h ⊢
    by_cases hlt : st.bytes_read < length
    · simp only [hlt, if_true] at h ⊢
      cases hm : mutex_lock st.state.uart_mutex with
      | none => simp [hm] at h
      | some m =>
        simp only [hm] at h ⊢
        exact ih _ _ h f (by omega)
    · simp only [hlt, if_false] at h ⊢
      exact h

/-- What `uart_read_blocking` does with a non-null buffer when the lock is free
and the receive queue holds at least `length` bytes: it returns after `length`
passes, with the `length` oldest bytes moved to the buffer; the return value is
`QUEUE_BUFFER_OVERFLOW` unless `length` is 0. -/
theorem uart_read_blocking_free (s : uart_t) (buf : Nat → Nat) (length : Nat)
    (hq : queue_inv s.rx_queue) (hl : s.uart_mutex.locked = 0)
    (hc : length ≤ s.rx_queue.count) :
    ∃ r buf2, (∀ fuel, length < fuel → uart_read_blocking fuel s (some buf) length = some r) ∧
      r.ret = (if 0 < length then QUEUE_BUFFER_OVERFLOW else QUEUE_BUFFER_NO_ERROR) ∧
      r.length = length ∧
      r.output_buffer = some buf2 ∧
      buffer_bytes buf2 length = s.rx_queue.contents.take length ∧
      r.state.rx_queue.contents = s.rx_queue.contents.drop length ∧
      r.state.rx_queue.count = s.rx_queue.count - length ∧
      queue_inv r.state.rx_queue ∧
      r.state.tx_queue = s.tx_queue ∧
      r.state.uart_mutex.locked = 0 ∧
      r.state.m_received_bytes_count = s.m_received_bytes_count ∧
      r.state.m_is_initialised = s.m_is_initialised ∧
      r.state.UART_DATA_REG = s.UART_DATA_REG ∧
      (∀ i, length ≤ i → buf2 i = buf i) := by
  obtain ⟨st2, e, i1, i2, i3, i4, i5, i6, i7, i8, i9, i10, i11, i12⟩ :=
    uart_read_blocking_loop_spec length (IS_INTERRUPT_ENABLED s.UART_CONTROL_STATUS_REG).1
      (length + 1)
      { ret := QUEUE_BUFFER_NO_ERROR
        state := { s with
          UART_CONTROL_STATUS_REG := (IS_INTERRUPT_ENABLED s.UART_CONTROL_STATUS_REG).2 }
        output_buffer := buf
        bytes_read := 0 }
      hq hl (Nat.zero_le _) (by simpa using hc) (by simp)
  simp only [Nat.sub_zero, buffer_bytes, List.range_zero, List.map_nil,
    List.nil_append] at i2 i3 i4 i5 i6 i7 i8 i9 i10 i11 i12
  refine ⟨{ ret := st2.ret, state := st2.state, output_buffer := some st2.output_buffer,
            length := st2.bytes_read }, st2.output_buffer, ?_, i2, i1, rfl, i3, i4, i5, i6, i7,
          i8, i9, i10, i11, i12⟩
  intro fuel hf
  have e2 := uart_read_blocking_loop_mono length _ (length + 1) _ _ e fuel (by omega)
  simp only [uart_read_blocking, e2, Option.map_some']

theorem queue_push_bounds (reg : Nat) (q : queue_t) (b : Nat) (hq : code_bounds q) :
    code_bounds (queue_push reg q b).queue := by
  obtain ⟨h1, h2, h3⟩ := hq
  simp only [QUEUE_SIZE] at h1 h2 h3
  by_cases h : q.count < 256
  · simp only [queue_push, code_bounds, QUEUE_SIZE, h, if_true]
    refine ⟨by omega, h2, ?_⟩
    split <;> omega
  · simp only [queue_push, code_bounds, QUEUE_SIZE, h, if_false]
    exact ⟨h1, h2, h3⟩

theorem queue_pop_bounds (reg : Nat) (q : queue_t) (byte : Option Nat) (hq : code_bounds q) :
    code_bounds (queue_pop reg q byte).queue := by
  obtain ⟨h1, h2, h3⟩ := hq
  simp only [QUEUE_SIZE] at h1 h2 h3
  cases byte with
  | none => simp only [queue_pop, code_bounds, QUEUE_SIZE]; exact ⟨h1, h2, h3⟩
  | some v =>
    by_cases h : q.count > 0
    · simp only [queue_pop, code_bounds, QUEUE_SIZE, h, if_true]
      refine ⟨by omega, ?_, h3⟩
      split <;> omega
    · simp only [queue_pop, code_bounds, QUEUE_SIZE, h, if_false]
      exact ⟨h1, h2, h3⟩

/-- A property of queues that `queue_pop` preserves still holds of the receive
queue when the loop of `uart_read_nonblocking` ends; the transmit queue is not
touched. -/
theorem uart_read_nonblocking_loop_preserves (P : queue_t → Prop)
    (hP : ∀ reg q byte, P q → P (queue_pop reg q byte).queue) (max_length : Nat) :
    ∀ (fuel : Nat) (st st2 : read_loop_state), P st.state.rx_queue →
      uart_read_nonblocking_loop max_length fuel st = some st2 →
      P st2.state.rx_queue ∧ st2.state.tx_queue = st.state.tx_queue := by
  intro fuel
  induction fuel with
  | zero => intro st st2 _ h; simp [uart_read_nonblocking_loop] at h
  | succ fuel ih =>
    intro st st2 hp h
    rw [uart_read_nonblocking_loop_step] at h
    by_cases hlt : st.bytes_read < max_length
    · rw [if_pos hlt] at h
      by_cases hret : (queue_pop st.state.UART_CONTROL_STATUS_REG st.state.rx_queue
          (some (st.output_buffer st.bytes_read))).ret = QUEUE_BUFFER_NO_ERROR
      · rw [if_pos hret] at h
        have hp2 := hP st.state.UART_CONTROL_STATUS_REG st.state.rx_queue
          (some (st.output_buffer st.bytes_read)) hp
        have h3 := fun hh => ih _ st2 hh h
        exact h3 hp2
      · rw [if_neg hret] at h
        have hp2 := hP st.state.UART_CONTROL_STATUS_REG st.state.rx_queue
          (some (st.output_buffer st.bytes_read)) hp
        cases h
        exact ⟨hp2, rfl⟩
    · rw [if_neg hlt] at h
      cases h; exact ⟨hp, rfl⟩

/-- A property of queues that `queue_pop` preserves still holds of the receive
queue when the loop of `uart_read_blocking` ends; the transmit queue is not
touched. -/
theorem uart_read_blocking_loop_preserves (P : queue_t → Prop)
    (hP : ∀ reg q byte, P q → P (queue_pop reg q byte).queue) (length interrupt_state : Nat) :
    ∀ (fuel : Nat) (st st2 : read_loop_state), P st.state.rx_queue →
      uart_read_blocking_loop length interrupt_state fuel st = some st2 →
      P st2.state.rx_queue ∧ st2.state.tx_queue = st.state.tx_queue := by
  intro fuel
  induction fuel with
  | zero => intro st st2 _ h; simp [uart_read_blocking_loop] at h
  | succ fuel ih =>
    intro st st2 hp h
    simp only [uart_read_blocking_loop] at h
    by_cases hlt : st.bytes_read < length
    · simp only [hlt, if_true] at h
      cases hm : mutex_lock st.state.uart_mutex with
      | none => simp [hm] at h
      | some m =>
        simp only [hm] at h
        have hp2 := hP (INTERRUPT_DISABLE st.state.UART_CONTROL_STATUS_REG) st.state.rx_queue
          (some (st.output_buffer st.bytes_read)) hp
        have h3 := fun hh => ih (uart_read_blocking_pass interrupt_state st m) st2 hh h
        exact h3 hp2
    · simp only [hlt, if_false] at h
      cases h; exact ⟨hp, rfl⟩

/-- Whenever `uart_read_nonblocking` returns, a property of queues that
`queue_pop` preserves still holds of the receive queue, and the transmit queue
is as before. -/
theorem uart_read_nonblocking_preserves (P : queue_t → Prop)
    (hP : ∀ reg q byte, P q → P (queue_pop reg q byte).queue) (s : uart_t)
    (buf : Option (Nat → Nat)) (m : Nat) (r : read_result) (hp : P s.rx_queue)
    (h : uart_read_nonblocking s buf m = some r) :
    P r.state.rx_queue ∧ r.state.tx_queue = s.tx_queue := by
  cases buf with
  | none =>
    simp only [uart_read_nonblocking, Option.some.injEq] at h
    subst h; exact ⟨hp, rfl⟩
  | some b =>
    simp only [uart_read_nonblocking] at h
    cases hm : mutex_lock s.uart_mutex with
    | none => simp [hm] at h
    | some mx =>
      simp only [hm] at h
      split at h
      · simp at h
      · rename_i st hst
        have := uart_read_nonblocking_loop_preserves P hP m _ _ st hp hst
        simp only [Option.some.injEq] at h
        subst h
        exact this

/-- Whenever `uart_read_blocking` returns, a property of queues that
`queue_pop` preserves still holds of the receive queue, and the transmit queue
is as before. -/
theorem uart_read_blocking_preserves (P : queue_t → Prop)
    (hP : ∀ reg q byte, P q → P (queue_pop reg q byte).queue) (fuel : Nat) (s : uart_t)
    (buf : Option (Nat → Nat)) (length : Nat) (r : read_result) (hp : P s.rx_queue)
    (h : uart_read_blocking fuel s buf length = some r) :
    P r.state.rx_queue ∧ r.state.tx_queue = s.tx_queue := by
  cases buf with
  | none =>
    simp only [uart_read_blocking, Option.some.injEq] at h
    subst h; exact ⟨hp, rfl⟩
  | some b =>
    simp only [uart_read_blocking, Option.map_eq_some'] at h
    obtain ⟨st, hst, rfl⟩ := h
    exact uart_read_blocking_loop_preserves P hP length _ fuel _ st hp hst

/-- A property of queues that `queue_push` and `queue_pop` preserve still holds
of both queues after an invocation of the interrupt handler. -/
theorem uart_interrupt_handler_preserves (P : queue_t → Prop)
    (hpush : ∀ reg q byte, P q → P (queue_push reg q byte).queue)
    (hpop : ∀ reg q byte, P q → P (queue_pop reg q byte).queue) (s : uart_t)
    (hrx : P s.rx_queue) (htx : P s.tx_queue) :
    P (uart_interrupt_handler s).rx_queue ∧ P (uart_interrupt_handler s).tx_queue := by
  have hp1 := hpush s.UART_CONTROL_STATUS_REG s.rx_queue s.UART_DATA_REG hrx
  have hp2 := hpop s.UART_CONTROL_STATUS_REG s.tx_queue (some 0) htx
  have hp3 := hpop (queue_push s.UART_CONTROL_STATUS_REG s.rx_queue s.UART_DATA_REG).reg
    s.tx_queue (some 0) htx
  unfold uart_interrupt_handler
  simp only
  split <;> split <;> (try split) <;> (try split) <;>
    first
      | exact ⟨hrx, htx⟩
      | exact ⟨hp1, htx⟩
      | exact ⟨hrx, hp2⟩
      | exact ⟨hp1, hp3⟩

/-! ## The control/status register -/

theorem testBit_int_enable (i : Nat) : Nat.testBit 32768 i = decide (15 = i) := by
  have h := @Nat.testBit_two_pow 15 i
  simpa using h

/-- Masking with `INT_ENABLE` keeps bit 15 and nothing else. -/
theorem and_int_enable (x : Nat) : x &&& 32768 = if x.testBit 15 then 32768 else 0 := by
  apply Nat.eq_of_testBit_eq
  intro i
  rw [Nat.testBit_and, testBit_int_enable]
  by_cases hi : 15 = i
  · subst hi
    cases hx : x.testBit 15 <;> simp [hx, testBit_int_enable]
  · cases hx : x.testBit 15 <;> simp [hi, testBit_int_enable]

theorem int_enable_mask : INT_ENABLE &&& UART_INTERRUPT_MASK = 32768 := by decide

theorem int_disable_mask : 0xFFFF - (INT_ENABLE &&& UART_INTERRUPT_MASK) = 32767 := by decide

/-- The pattern `state = IS_INTERRUPT_ENABLED(); INTERRUPT_DISABLE(); ...; if (state)
INTERRUPT_ENABLE();` with nothing in between: the register ends as its old bit 15. -/
theorem critical_section_reg (reg : Nat) :
    (if (IS_INTERRUPT_ENABLED reg).1 ≠ 0
      then INTERRUPT_ENABLE (INTERRUPT_DISABLE (IS_INTERRUPT_ENABLED reg).2)
      else INTERRUPT_DISABLE (IS_INTERRUPT_ENABLED reg).2) = reg &&& 32768 := by
  have h0 : (32768 : Nat) &&& 32767 = 0 := by decide
  simp only [IS_INTERRUPT_ENABLED, INTERRUPT_ENABLE, INTERRUPT_DISABLE, int_enable_mask,
    int_disable_mask, Nat.land_assoc, h0, Nat.and_zero, Nat.zero_or]
  rw [and_int_enable]
  cases reg.testBit 15 <;> simp

theorem queue_push_reg (reg : Nat) (q : queue_t) (b : Nat) :
    (queue_push reg q b).reg = reg &&& 32768 :=
  critical_section_reg reg

theorem queue_pop_reg (reg : Nat) (q : queue_t) (byte : Option Nat) :
    (queue_pop reg q byte).reg = reg &&& 32768 :=
  critical_section_reg reg

theorem testBit_and_int_enable (x : Nat) : (x &&& 32768).testBit 15 = x.testBit 15 := by
  rw [Nat.testBit_and, testBit_int_enable]; simp

theorem and_int_enable_idem (x : Nat) : (x &&& 32768) &&& 32768 = x &&& 32768 := by
  rw [Nat.land_assoc, Nat.and_self]

theorem int_disable_and (x : Nat) : INTERRUPT_DISABLE (x &&& 32768) = 0 := by
  have h0 : (32768 : Nat) &&& 32767 = 0 := by decide
  simp only [INTERRUPT_DISABLE, int_disable_mask, Nat.land_assoc, h0, Nat.and_zero]

theorem int_enable_zero : INTERRUPT_ENABLE 0 = 32768 := by decide

/-- After `INTERRUPT_DISABLE()` and any number of pushes and pops the register
is 0; the closing `if (interrupt_state) INTERRUPT_ENABLE();` makes it the saved
`interrupt_state`. -/
theorem restore_reg (x : Nat) :
    (if x &&& 32768 ≠ 0 then INTERRUPT_ENABLE 0 else 0) = x &&& 32768 := by
  rw [int_enable_zero, and_int_enable]
  cases x.testBit 15 <;> simp

/-! ## What the API functions leave unchanged -/

theorem mutex_lock_some (mutex m : mutex_t) (h : mutex_lock mutex = some m) :
    mutex.locked = 0 ∧ m = { locked := 1 } := by
  unfold mutex_lock at h
  by_cases hl : mutex.locked = 0
  · simp only [hl, ne_eq, not_true_eq_false, if_false, Option.some.injEq] at h
    exact ⟨hl, h.symm⟩
  · simp only [ne_eq, hl, not_false_eq_true, if_true, reduceCtorEq] at h

theorem mutex_eq_of_locked (mutex : mutex_t) (h : mutex.locked = 0) :
    mutex = { locked := 0 } := by
  cases mutex with
  | mk l => simp only at h; subst h; rfl

/-- Whenever `uart_write_bytes` returns, the driver state is the state at entry with
the control/status register reduced to its bit 15. -/
theorem uart_write_bytes_state (s : uart_t) (p : queue_ptr) (data : Option (Nat → Nat))
    (length : Nat) (r : write_result) (h : uart_write_bytes s p data length = some r) :
    r.state = { s with UART_CONTROL_STATUS_REG := s.UART_CONTROL_STATUS_REG &&& 32768 } := by
  have hreg := critical_section_reg s.UART_CONTROL_STATUS_REG
  cases data with
  | none =>
    simp only [uart_write_bytes, Option.map_some', Option.some.injEq] at h
    subst h
    split
    · next hi => rw [if_pos hi] at hreg; rw [← hreg]
    · next hi => rw [if_neg hi] at hreg; rw [← hreg]
  | some d =>
    by_cases hc : (length + (s.queue p).count) % 2 ^ 32 ≤ QUEUE_SIZE
    · cases hm : mutex_lock s.uart_mutex with
      | none =>
        simp only [uart_write_bytes, uart_t.queue_reg, hc, if_true, hm, Option.map_none',
          reduceCtorEq] at h
      | some m =>
        obtain ⟨hl, rfl⟩ := mutex_lock_some _ _ hm
        have hmx := mutex_eq_of_locked _ hl
        simp only [uart_write_bytes, uart_t.queue_reg, hc, if_true, hm,
          uart_write_bytes_loop_no_error, Option.map_some', Option.some.injEq] at h
        subst h
        split
        · next hi =>
          rw [if_pos hi] at hreg; rw [← hreg]
          cases p <;> simp only [uart_t.setQueue, uart_t.queue, mutex_unlock] <;> rw [hmx]
        · next hi =>
          rw [if_neg hi] at hreg; rw [← hreg]
          cases p <;> simp only [uart_t.setQueue, uart_t.queue, mutex_unlock] <;> rw [hmx]
    · simp only [uart_write_bytes, uart_t.queue_reg, hc, if_false, Option.map_some',
        Option.some.injEq] at h
      subst h
      split
      · next hi => rw [if_pos hi] at hreg; rw [← hreg]
      · next hi => rw [if_neg hi] at hreg; rw [← hreg]

/-- When the loop of `uart_read_nonblocking` ends, everything but the receive queue,
the buffer and the control/status register is as the loop found it, and a register
that was 0 is still 0. -/
theorem uart_read_nonblocking_loop_frame (max_length : Nat) :
    ∀ (fuel : Nat) (st st2 : read_loop_state),
      uart_read_nonblocking_loop max_length fuel st = some st2 →
      st2.state.tx_queue = st.state.tx_queue ∧
      st2.state.uart_mutex = st.state.uart_mutex ∧
      st2.state.m_received_bytes_count = st.state.m_received_bytes_count ∧
      st2.state.m_is_initialised = st.state.m_is_initialised ∧
      st2.state.UART_DATA_REG = st.state.UART_DATA_REG ∧
      (st.state.UART_CONTROL_STATUS_REG = 0 → st2.state.UART_CONTROL_STATUS_REG = 0) := by
  intro fuel
  induction fuel with
  | zero => intro st st2 h; simp [uart_read_nonblocking_loop] at h
  | succ fuel ih =>
    intro st st2 h
    rw [uart_read_nonblocking_loop_step] at h
    have hpr := queue_pop_reg st.state.UART_CONTROL_STATUS_REG st.state.rx_queue
      (some (st.output_buffer st.bytes_read))
    by_cases hlt : st.bytes_read < max_length
    · rw [if_pos hlt] at h
      by_cases hret : (queue_pop st.state.UART_CONTROL_STATUS_REG st.state.rx_queue
          (some (st.output_buffer st.bytes_read))).ret = QUEUE_BUFFER_NO_ERROR
      · rw [if_pos hret] at h
        obtain ⟨i1, i2, i3, i4, i5, i6⟩ := ih _ st2 h
        refine ⟨i1, i2, i3, i4, i5, ?_⟩
        intro h0
        apply i6
        show (queue_pop st.state.UART_CONTROL_STATUS_REG st.state.rx_queue
          (some (st.output_buffer st.bytes_read))).reg = 0
        rw [hpr, h0]; rfl
      · rw [if_neg hret] at h
        cases h
        refine ⟨rfl, rfl, rfl, rfl, rfl, ?_⟩
        intro h0
        show (queue_pop st.state.UART_CONTROL_STATUS_REG st.state.rx_queue
          (some (st.output_buffer st.bytes_read))).reg = 0
        rw [hpr, h0]; rfl
    · rw [if_neg hlt] at h
      cases h
      exact ⟨rfl, rfl, rfl, rfl, rfl, fun h0 => h0⟩

/-- Whenever `uart_read_nonblocking` returns, the control/status register is
reduced to its bit 15 and the transmit queue, the lock, the receive counter, the
initialisation flag and the data register are as before. -/
theorem uart_read_nonblocking_frame (s : uart_t) (buf : Option (Nat → Nat)) (m : Nat)
    (r : read_result) (h : uart_read_nonblocking s buf m = some r) :
    r.state.UART_CONTROL_STATUS_REG = s.UART_CONTROL_STATUS_REG &&& 32768 ∧
    r.state.tx_queue = s.tx_queue ∧
    r.state.uart_mutex.locked = s.uart_mutex.locked ∧
    r.state.m_received_bytes_count = s.m_received_bytes_count ∧
    r.state.m_is_initialised = s.m_is_initialised ∧
    r.state.UART_DATA_REG = s.UART_DATA_REG := by
  cases buf with
  | none =>
    simp only [uart_read_nonblocking, Option.some.injEq] at h
    subst h
    refine ⟨?_, rfl, rfl, rfl, rfl, rfl⟩
    simp only [IS_INTERRUPT_ENABLED, int_enable_mask]
  | some b =>
    simp only [uart_read_nonblocking] at h
    cases hm : mutex_lock s.uart_mutex with
    | none => simp [hm] at h
    | some mx =>
      obtain ⟨hl, rfl⟩ := mutex_lock_some _ _ hm
      simp only [hm] at h
      split at h
      · simp at h
      · rename_i st hst
        obtain ⟨i1, i2, i3, i4, i5, i6⟩ := uart_read_nonblocking_loop_frame m _ _ st hst
        have hz : st.state.UART_CONTROL_STATUS_REG = 0 := by
          apply i6
          show INTERRUPT_DISABLE (IS_INTERRUPT_ENABLED s.UART_CONTROL_STATUS_REG).2 = 0
          simp only [IS_INTERRUPT_ENABLED, int_enable_mask, int_disable_and]
        simp only [Option.some.injEq] at h
        subst h
        refine ⟨?_, i1, ?_, i3, i4, i5⟩
        · show (if (IS_INTERRUPT_ENABLED s.UART_CONTROL_STATUS_REG).1 ≠ 0 then
              INTERRUPT_ENABLE st.state.UART_CONTROL_STATUS_REG
            else st.state.UART_CONTROL_STATUS_REG) = s.UART_CONTROL_STATUS_REG &&& 32768
          rw [hz]
          simp only [IS_INTERRUPT_ENABLED, int_enable_mask]
          exact restore_reg s.UART_CONTROL_STATUS_REG
        · show (mutex_unlock st.state.uart_mutex).locked = s.uart_mutex.locked
          rw [hl]; rfl

/-- A pass of the loop of `uart_read_blocking` started with the register equal to
the saved `interrupt_state` ends with the register equal to it again. -/
theorem uart_read_blocking_pass_reg (x : Nat) (st : read_loop_state) (m : mutex_t)
    (h : st.state.UART_CONTROL_STATUS_REG = x &&& 32768) :
    (uart_read_blocking_pass (x &&& 32768) st m).state.UART_CONTROL_STATUS_REG
      = x &&& 32768 := by
  show (if x &&& 32768 ≠ 0 then
      INTERRUPT_ENABLE (queue_pop (INTERRUPT_DISABLE st.state.UART_CONTROL_STATUS_REG)
        st.state.rx_queue (some (st.output_buffer st.bytes_read))).reg
    else (queue_pop (INTERRUPT_DISABLE st.state.UART_CONTROL_STATUS_REG)
        st.state.rx_queue (some (st.output_buffer st.bytes_read))).reg) = x &&& 32768
  rw [queue_pop_reg, h, int_disable_and]
  have h0 : (0 : Nat) &&& 32768 = 0 := by decide
  rw [h0]
  exact restore_reg x

/-- When the loop of `uart_read_blocking` ends, the transmit queue, the lock, the
receive counter, the initialisation flag and the data register are as the loop
found them, and so is a register that equalled the saved `interrupt_state`. -/
theorem uart_read_blocking_loop_frame (length x : Nat) :
    ∀ (fuel : Nat) (st st2 : read_loop_state),
      uart_read_blocking_loop length (x &&& 32768) fuel st = some st2 →
      st2.state.tx_queue = st.state.tx_queue ∧
      st2.state.uart_mutex.locked = st.state.uart_mutex.locked ∧
      st2.state.m_received_bytes_count = st.state.m_received_bytes_count ∧
      st2.state.m_is_initialised = st.state.m_is_initialised ∧
      st2.state.UART_DATA_REG = st.state.UART_DATA_REG ∧
      (st.state.UART_CONTROL_STATUS_REG = x &&& 32768 →
        st2.state.UART_CONTROL_STATUS_REG = x &&& 32768) := by
  intro fuel
  induction fuel with
  | zero => intro st st2 h; simp [uart_read_blocking_loop] at h
  | succ fuel ih =>
    intro st st2 h
    simp only [uart_read_blocking_loop] at h
    by_cases hlt : st.bytes_read < length
    · simp only [hlt, if_true] at h
      cases hm : mutex_lock st.state.uart_mutex with
      | none => simp [hm] at h
      | some m =>
        obtain ⟨hl, rfl⟩ := mutex_lock_some _ _ hm
        simp only [hm] at h
        obtain ⟨i1, i2, i3, i4, i5, i6⟩ := ih _ st2 h
        refine ⟨i1, ?_, i3, i4, i5, ?_⟩
        · rw [i2, hl]; rfl
        · intro h0
          exact i6 (uart_read_blocking_pass_reg x st _ h0)
    · simp only [hlt, if_false, Option.some.injEq] at h
      subst h
      exact ⟨rfl, rfl, rfl, rfl, rfl, fun h0 => h0⟩

/-- Whenever `uart_read_blocking` returns, the control/status register is reduced
to its bit 15 and the transmit queue, the lock, the receive counter, the
initialisation flag and the data register are as before. -/
theorem uart_read_blocking_frame (fuel : Nat) (s : uart_t) (buf : Option (Nat → Nat))
    (length : Nat) (r : read_result) (h : uart_read_blocking fuel s buf length = some r) :
    r.state.UART_CONTROL_STATUS_REG = s.UART_CONTROL_STATUS_REG &&& 32768 ∧
    r.state.tx_queue = s.tx_queue ∧
    r.state.uart_mutex.locked = s.uart_mutex.locked ∧
    r.state.m_received_bytes_count = s.m_received_bytes_count ∧
    r.state.m_is_initialised = s.m_is_initialised ∧
    r.state.UART_DATA_REG = s.UART_DATA_REG := by
  have his : (IS_INTERRUPT_ENABLED s.UART_CONTROL_STATUS_REG).1
      = s.UART_CONTROL_STATUS_REG &&& 32768 := by
    simp only [IS_INTERRUPT_ENABLED, int_enable_mask]
  have his2 : (IS_INTERRUPT_ENABLED s.UART_CONTROL_STATUS_REG).2
      = s.UART_CONTROL_STATUS_REG &&& 32768 := by
    simp only [IS_INTERRUPT_ENABLED, int_enable_mask]
  cases buf with
  | none =>
    simp only [uart_read_blocking, Option.some.injEq] at h
    subst h
    exact ⟨his2, rfl, rfl, rfl, rfl, rfl⟩
  | some b =>
    simp only [uart_read_blocking, Option.map_eq_some', his, his2] at h
    obtain ⟨st, hst, rfl⟩ := h
    obtain ⟨i1, i2, i3, i4, i5, i6⟩ :=
      uart_read_blocking_loop_frame length s.UART_CONTROL_STATUS_REG fuel _ st hst
    exact ⟨i6 rfl, i1, i2, i3, i4, i5⟩

/-- The interrupt handler does not touch the lock or the initialisation flag. -/
theorem uart_interrupt_handler_frame (s : uart_t) :
    (uart_interrupt_handler s).uart_mutex = s.uart_mutex ∧
    (uart_interrupt_handler s).m_is_initialised = s.m_is_initialised := by
  unfold uart_interrupt_handler
  simp only
  split <;> split <;> (try split) <;> (try split) <;> exact ⟨rfl, rfl⟩

/-! ## The interrupt handler -/

/-- Receive side of the interrupt handler: the receive queue and the counter
afterwards, in terms of the one `queue_push` it may perform. -/
theorem uart_interrupt_handler_rx (s : uart_t) :
    (uart_interrupt_handler s).rx_queue
      = (if s.UART_CONTROL_STATUS_REG &&& RX_NOT_EMPTY ≠ 0 ∧
            s.UART_CONTROL_STATUS_REG &&& RX_ENABLE ≠ 0
          then (queue_push s.UART_CONTROL_STATUS_REG s.rx_queue s.UART_DATA_REG).queue
          else s.rx_queue) ∧
    (uart_interrupt_handler s).m_received_bytes_count
      = (if (s.UART_CONTROL_STATUS_REG &&& RX_NOT_EMPTY ≠ 0 ∧
            s.UART_CONTROL_STATUS_REG &&& RX_ENABLE ≠ 0) ∧
            (queue_push s.UART_CONTROL_STATUS_REG s.rx_queue s.UART_DATA_REG).ret
              = QUEUE_BUFFER_NO_ERROR
          then (s.m_received_bytes_count + 1) % 2 ^ 32
          else s.m_received_bytes_count) := by
  unfold uart_interrupt_handler
  simp only
  split_ifs <;> simp_all

/-- Transmit side of the interrupt handler: the transmit queue and the data
register afterwards, in terms of the one `queue_pop` it may perform (`reg` is the
value of the control/status register at that point). -/
theorem uart_interrupt_handler_tx (s : uart_t) :
    ∃ reg,
      (uart_interrupt_handler s).tx_queue
        = (if s.UART_CONTROL_STATUS_REG &&& TX_NOT_FULL ≠ 0 ∧
              s.UART_CONTROL_STATUS_REG &&& TX_ENABLE ≠ 0
            then (queue_pop reg s.tx_queue (some 0)).queue
            else s.tx_queue) ∧
      (uart_interrupt_handler s).UART_DATA_REG
        = (if (s.UART_CONTROL_STATUS_REG &&& TX_NOT_FULL ≠ 0 ∧
              s.UART_CONTROL_STATUS_REG &&& TX_ENABLE ≠ 0) ∧
              (queue_pop reg s.tx_queue (some 0)).ret = QUEUE_BUFFER_NO_ERROR
            then (queue_pop reg s.tx_queue (some 0)).byte.getD 0
            else s.UART_DATA_REG) := by
  by_cases hrx : s.UART_CONTROL_STATUS_REG &&& RX_NOT_EMPTY ≠ 0 ∧
      s.UART_CONTROL_STATUS_REG &&& RX_ENABLE ≠ 0
  · refine ⟨(queue_push s.UART_CONTROL_STATUS_REG s.rx_queue s.UART_DATA_REG).reg, ?_⟩
    unfold uart_interrupt_handler
    simp only [hrx]
    split_ifs <;> simp_all
  · refine ⟨s.UART_CONTROL_STATUS_REG, ?_⟩
    unfold uart_interrupt_handler
    simp only [hrx]
    split_ifs <;> simp_all

/-! ## Claims -/

/-- C1. Starting from the zero-initialised queue, for every sequence of
`queue_push` and `queue_pop` calls whose occupancy never exceeds `QUEUE_SIZE`,
after every prefix of the sequence: the bytes delivered by the successful pops
followed by the bytes still queued are exactly the bytes pushed, in push order
(FIFO, across wrap-around); every push succeeded; and `count` is the number of
successful pushes minus the number of successful pops. -/
theorem queue_fifo_order (reg : Nat) (ops : List queue_op)
    (h : ∀ k, k ≤ ops.length → occupancy 0 (ops.take k) ≤ QUEUE_SIZE) (k : Nat) :
    popped_bytes (run_ops reg queue_zero (ops.take k)).events
        ++ (run_ops reg queue_zero (ops.take k)).queue.contents
      = pushed_bytes (ops.take k) ∧
    successful_pushes (run_ops reg queue_zero (ops.take k)).events
      = (pushed_bytes (ops.take k)).length ∧
    successful_pops (run_ops reg queue_zero (ops.take k)).events
      ≤ successful_pushes (run_ops reg queue_zero (ops.take k)).events ∧
    (run_ops reg queue_zero (ops.take k)).queue.count
      = successful_pushes (run_ops reg queue_zero (ops.take k)).events
        - successful_pops (run_ops reg queue_zero (ops.take k)).events := by
  have hocc : ∀ j, j ≤ (ops.take k).length →
      occupancy queue_zero.count ((ops.take k).take j) ≤ QUEUE_SIZE := by
    intro j hj
    rw [List.take_take]
    have hj2 : j ≤ ops.length := by
      have := List.length_take_le' k ops
      omega
    exact h (min j k) (le_trans (Nat.min_le_left _ _) hj2)
  obtain ⟨_, i2, _, i4, i5⟩ := run_ops_spec (ops.take k) reg queue_zero queue_zero_inv hocc
  have hz : queue_zero.count = 0 := rfl
  have hc : queue_zero.contents = [] := rfl
  rw [hc, List.nil_append] at i2
  refine ⟨i2, i5, ?_, ?_⟩ <;> omega

/-- Witness for C1: two pushes followed by three pops, the last one on the
empty queue. -/
theorem queue_fifo_order_witness :
    (∀ k, k ≤ sample_ops.length → occupancy 0 (sample_ops.take k) ≤ QUEUE_SIZE) ∧
    (popped_bytes (run_ops 32768 queue_zero (sample_ops.take 5)).events
        ++ (run_ops 32768 queue_zero (sample_ops.take 5)).queue.contents
      = pushed_bytes (sample_ops.take 5) ∧
    successful_pushes (run_ops 32768 queue_zero (sample_ops.take 5)).events
      = (pushed_bytes (sample_ops.take 5)).length ∧
    successful_pops (run_ops 32768 queue_zero (sample_ops.take 5)).events
      ≤ successful_pushes (run_ops 32768 queue_zero (sample_ops.take 5)).events ∧
    (run_ops 32768 queue_zero (sample_ops.take 5)).queue.count
      = successful_pushes (run_ops 32768 queue_zero (sample_ops.take 5)).events
        - successful_pops (run_ops 32768 queue_zero (sample_ops.take 5)).events) :=
  ⟨by decide, queue_fifo_order 32768 sample_ops (by decide) 5⟩

/-- C2 fails on the code: writing the 13 bytes of `tx_data` to the empty
transmit queue right after `uart_init` returns `QUEUE_BUFFER_NO_ERROR`, yet
`uart_bytes_in_transmit_queue()` is still 0 afterwards: the loop condition
`i < length && ret` is false at once because `ret` starts as
`QUEUE_BUFFER_NO_ERROR`, which is 0, so no byte is pushed. -/
theorem uart_write_bytes_pushes_nothing :
    (uart_write_bytes (uart_init power_on) queue_ptr.tx (some tx_data) 13).map
        (fun r => (r.ret, uart_bytes_in_transmit_queue r.state))
      = some (QUEUE_BUFFER_NO_ERROR, 0) := by
  decide

/-- C3 fails on the code: with one byte in the receive queue and
`length = 4294967295` the true sum is 4294967296, far above 256, but the 32-bit
sum `length + queue->count` wraps to 0, the admission test passes, and
`uart_write_bytes` returns `QUEUE_BUFFER_NO_ERROR` instead of `INPUT_ERROR`. -/
theorem uart_write_bytes_wraps :
    after_one_rx.rx_queue.count = 1 ∧
    256 < 4294967295 + after_one_rx.rx_queue.count ∧
    (uart_write_bytes after_one_rx queue_ptr.rx (some tx_data) 4294967295).map
        (fun r => r.ret)
      = some QUEUE_BUFFER_NO_ERROR := by
  refine ⟨by decide, by decide, ?_⟩
  obtain ⟨r, h, hret, -⟩ :=
    uart_write_bytes_free after_one_rx queue_ptr.rx (some tx_data) 4294967295 (by decide)
  have hc : after_one_rx.rx_queue.count = 1 := by decide
  rw [h, Option.map_some', hret]
  simp [uart_t.queue, hc, QUEUE_SIZE]

/-- C4. With a reachable receive queue holding `c` bytes, the lock free, a
non-null buffer and `*max_length = m`, `uart_read_nonblocking` returns
`QUEUE_BUFFER_NO_ERROR`, sets `*max_length` to `k = min m c`, leaves the `k`
oldest bytes of the queue in `output_buffer[0..k)` in FIFO order, the rest of
the buffer untouched, and the other `c - k` bytes in the queue; on an empty
queue `*max_length` becomes 0. -/
theorem uart_read_nonblocking_spec (s : uart_t) (buf : Nat → Nat) (m : Nat)
    (hq : reachable s.rx_queue) (hl : s.uart_mutex.locked = 0) :
    ∃ r buf2, uart_read_nonblocking s (some buf) m = some r ∧
      r.ret = QUEUE_BUFFER_NO_ERROR ∧
      r.length = min m s.rx_queue.count ∧
      r.output_buffer = some buf2 ∧
      buffer_bytes buf2 (min m s.rx_queue.count)
        = s.rx_queue.contents.take (min m s.rx_queue.count) ∧
      r.state.rx_queue.contents = s.rx_queue.contents.drop (min m s.rx_queue.count) ∧
      r.state.rx_queue.count = s.rx_queue.count - min m s.rx_queue.count ∧
      (∀ i, min m s.rx_queue.count ≤ i → buf2 i = buf i) ∧
      (s.rx_queue.count = 0 → r.length = 0) := by
  obtain ⟨r, buf2, h1, h2, h3, h4, h5, h6, h7, -, -, -, -, -, -, h8⟩ :=
    uart_read_nonblocking_free s buf m (reachable_inv _ hq) hl
  refine ⟨r, buf2, h1, h2, h3, h4, h5, h6, h7, h8, ?_⟩
  intro h0
  rw [h3, h0]; simp

/-- Witness for C4: a read of up to 1000 bytes when the receive queue holds one byte. -/
theorem uart_read_nonblocking_spec_witness :
    reachable after_one_rx.rx_queue ∧ after_one_rx.uart_mutex.locked = 0 ∧
    ∃ r buf2, uart_read_nonblocking after_one_rx (some rx_data) 1000 = some r ∧
      r.ret = QUEUE_BUFFER_NO_ERROR ∧
      r.length = min 1000 after_one_rx.rx_queue.count ∧
      r.output_buffer = some buf2 ∧
      buffer_bytes buf2 (min 1000 after_one_rx.rx_queue.count)
        = after_one_rx.rx_queue.contents.take (min 1000 after_one_rx.rx_queue.count) ∧
      r.state.rx_queue.contents
        = after_one_rx.rx_queue.contents.drop (min 1000 after_one_rx.rx_queue.count) ∧
      r.state.rx_queue.count
        = after_one_rx.rx_queue.count - min 1000 after_one_rx.rx_queue.count ∧
      (∀ i, min 1000 after_one_rx.rx_queue.count ≤ i → buf2 i = rx_data i) ∧
      (after_one_rx.rx_queue.count = 0 → r.length = 0) :=
  ⟨reachable.push 57345 queue_zero 65 reachable.zero, by decide,
    uart_read_nonblocking_spec after_one_rx rx_data 1000
      (reachable.push 57345 queue_zero 65 reachable.zero) (by decide)⟩

/-- C5 fails on the code: right after `uart_init`, writing the 13 bytes of
`tx_data` to the receive queue and then calling `uart_read_nonblocking` with
`*max_length = 1000` gives `QUEUE_BUFFER_NO_ERROR` twice, but `*max_length`
comes back as 0, not 13: the write pushed nothing. -/
theorem uart_round_trip_reads_nothing :
    (uart_write_bytes (uart_init power_on) queue_ptr.rx (some tx_data) 13).bind
        (fun w => (uart_read_nonblocking w.state (some rx_data) 1000).map
          (fun r => (w.ret, r.ret, r.length)))
      = some (QUEUE_BUFFER_NO_ERROR, QUEUE_BUFFER_NO_ERROR, 0) := by
  decide

/-- C6 fails on the code: with one byte in the receive queue, a non-null
buffer and `length = 1`, `uart_read_blocking` returns `QUEUE_BUFFER_OVERFLOW`:
`ret` receives the value of the comparison `queue_pop(...) == QUEUE_BUFFER_NO_ERROR`,
which is 1 after a successful pop. -/
theorem uart_read_blocking_returns_overflow :
    after_one_rx.rx_queue.count = 1 ∧ after_one_rx.uart_mutex.locked = 0 ∧
    (uart_read_blocking 2 after_one_rx (some rx_data) 1).map (fun r => r.ret)
      = some QUEUE_BUFFER_OVERFLOW := by
  decide

/-- C7. With a non-null buffer, the lock free and a reachable receive queue
holding `c ≥ length` bytes, `uart_read_blocking` returns after `length` passes
of its loop (any fuel above `length` gives the same result), with
`bytes_read = length`, the `length` oldest bytes of the queue in
`output_buffer[0..length)` in FIFO order, the rest of the buffer untouched, and
`c - length` bytes left queued. -/
theorem uart_read_blocking_collects (s : uart_t) (buf : Nat → Nat) (length : Nat)
    (hq : reachable s.rx_queue) (hl : s.uart_mutex.locked = 0)
    (hc : length ≤ s.rx_queue.count) :
    ∃ r buf2, (∀ fuel, length < fuel → uart_read_blocking fuel s (some buf) length = some r) ∧
      r.length = length ∧
      r.output_buffer = some buf2 ∧
      buffer_bytes buf2 length = s.rx_queue.contents.take length ∧
      r.state.rx_queue.contents = s.rx_queue.contents.drop length ∧
      r.state.rx_queue.count = s.rx_queue.count - length ∧
      (∀ i, length ≤ i → buf2 i = buf i) := by
  obtain ⟨r, buf2, h1, -, h3, h4, h5, h6, h7, -, -, -, -, -, -, h8⟩ :=
    uart_read_blocking_free s buf length (reachable_inv _ hq) hl hc
  exact ⟨r, buf2, h1, h3, h4, h5, h6, h7, h8⟩

/-- Witness for C7: a blocking read of one byte when the receive queue holds one byte. -/
theorem uart_read_blocking_collects_witness :
    reachable after_one_rx.rx_queue ∧ after_one_rx.uart_mutex.locked = 0 ∧
    1 ≤ after_one_rx.rx_queue.count ∧
    ∃ r buf2,
      (∀ fuel, 1 < fuel → uart_read_blocking fuel after_one_rx (some rx_data) 1 = some r) ∧
      r.length = 1 ∧
      r.output_buffer = some buf2 ∧
      buffer_bytes buf2 1 = after_one_rx.rx_queue.contents.take 1 ∧
      r.state.rx_queue.contents = after_one_rx.rx_queue.contents.drop 1 ∧
      r.state.rx_queue.count = after_one_rx.rx_queue.count - 1 ∧
      (∀ i, 1 ≤ i → buf2 i = rx_data i) :=
  ⟨reachable.push 57345 queue_zero 65 reachable.zero, by decide, by decide,
    uart_read_blocking_collects after_one_rx rx_data 1
      (reachable.push 57345 queue_zero 65 reachable.zero) (by decide) (by decide)⟩

/-- C8. On a queue with `count == 256`, `queue_push` returns
`QUEUE_BUFFER_OVERFLOW` and leaves the queue (data, head, tail, count) as it was,
for every byte and every register value. -/
theorem queue_push_full (reg : Nat) (q : queue_t) (byte : Nat) (h : q.count = 256) :
    (queue_push reg q byte).ret = QUEUE_BUFFER_OVERFLOW ∧ (queue_push reg q byte).queue = q :=
  queue_push_ret_full reg q byte (by simp [QUEUE_SIZE, h])

/-- Witness for C8: pushing onto a full queue. -/
theorem queue_push_full_witness :
    full_queue.count = 256 ∧
    ((queue_push 32768 full_queue 9).ret = QUEUE_BUFFER_OVERFLOW ∧
      (queue_push 32768 full_queue 9).queue = full_queue) :=
  ⟨by decide, queue_push_full 32768 full_queue 9 (by decide)⟩

/-- C9. On a queue with `count == 0` and a valid output pointer, `queue_pop`
returns `QUEUE_BUFFER_EMPTY`, leaves the byte at the output pointer as it was
and leaves the queue (data, head, tail, count) as it was. -/
theorem queue_pop_empty (reg : Nat) (q : queue_t) (out : Nat) (h : q.count = 0) :
    (queue_pop reg q (some out)).ret = QUEUE_BUFFER_EMPTY ∧
      (queue_pop reg q (some out)).byte = some out ∧
      (queue_pop reg q (some out)).queue = q := by
  obtain ⟨h1, h2, h3⟩ := queue_pop_ret_empty reg q out h
  exact ⟨h1, h3, h2⟩

/-- Witness for C9: popping from the zero-initialised queue. -/
theorem queue_pop_empty_witness :
    queue_zero.count = 0 ∧
    ((queue_pop 32768 queue_zero (some 5)).ret = QUEUE_BUFFER_EMPTY ∧
      (queue_pop 32768 queue_zero (some 5)).byte = some 5 ∧
      (queue_pop 32768 queue_zero (some 5)).queue = queue_zero) :=
  ⟨by decide, queue_pop_empty 32768 queue_zero 5 (by decide)⟩

set_option maxRecDepth 100000 in
/-- C10, as stated, fails: the zero-initialised queue satisfies the bounds of
the specification, and the queue reached by 256 pushes has `tail = 256`, outside
`[0, N)`. -/
theorem spec_bounds_counterexample :
    spec_bounds queue_zero ∧
    reachable (run_ops 32768 queue_zero fill_ops).queue ∧
    (run_ops 32768 queue_zero fill_ops).queue.tail = 256 ∧
    ¬ spec_bounds (run_ops 32768 queue_zero fill_ops).queue :=
  ⟨by decide, run_ops_reachable fill_ops 32768 queue_zero reachable.zero, by decide, by decide⟩

/-- C10 as amended. The bounds `0 ≤ count ≤ N`, `0 ≤ head < N`, `0 ≤ tail ≤ N`
hold for the zero-initialised queue and are preserved by every `queue_push` and
`queue_pop`; hence they hold of every reachable queue, and of both queues after
every `uart_write_bytes`, `uart_read_nonblocking` and `uart_read_blocking` call
that returns and after every invocation of the interrupt handler. -/
theorem code_bounds_invariant :
    code_bounds queue_zero ∧
    (∀ reg q byte, code_bounds q → code_bounds (queue_push reg q byte).queue) ∧
    (∀ reg q byte, code_bounds q → code_bounds (queue_pop reg q byte).queue) ∧
    (∀ q, reachable q → code_bounds q) ∧
    (∀ s : uart_t, code_bounds s.rx_queue → code_bounds s.tx_queue →
      (∀ p data length r, uart_write_bytes s p data length = some r →
        code_bounds r.state.rx_queue ∧ code_bounds r.state.tx_queue) ∧
      (∀ buf m r, uart_read_nonblocking s buf m = some r →
        code_bounds r.state.rx_queue ∧ code_bounds r.state.tx_queue) ∧
      (∀ fuel buf length r, uart_read_blocking fuel s buf length = some r →
        code_bounds r.state.rx_queue ∧ code_bounds r.state.tx_queue) ∧
      code_bounds (uart_interrupt_handler s).rx_queue ∧
      code_bounds (uart_interrupt_handler s).tx_queue) := by
  refine ⟨by decide, queue_push_bounds, queue_pop_bounds, ?_, ?_⟩
  · intro q hq
    induction hq with
    | zero => decide
    | push reg q b _ ih => exact queue_push_bounds reg q b ih
    | pop reg q byte _ ih => exact queue_pop_bounds reg q byte ih
  · intro s hrx htx
    refine ⟨?_, ?_, ?_, uart_interrupt_handler_preserves code_bounds queue_push_bounds
      queue_pop_bounds s hrx htx⟩
    · intro p data length r h
      obtain ⟨h1, h2⟩ := uart_write_bytes_queues s p data length r h
      rw [h1, h2]; exact ⟨hrx, htx⟩
    · intro buf m r h
      obtain ⟨h1, h2⟩ := uart_read_nonblocking_preserves code_bounds queue_pop_bounds s buf m r
        hrx h
      rw [h2]; exact ⟨h1, htx⟩
    · intro fuel buf length r h
      obtain ⟨h1, h2⟩ := uart_read_blocking_preserves code_bounds queue_pop_bounds fuel s buf
        length r hrx h
      rw [h2]; exact ⟨h1, htx⟩

/-- Witness for the amended C10: the queue after 256 pushes, whose `tail` is 256. -/
theorem code_bounds_invariant_witness :
    reachable (run_ops 32768 queue_zero fill_ops).queue ∧
      code_bounds (run_ops 32768 queue_zero fill_ops).queue :=
  ⟨run_ops_reachable fill_ops 32768 queue_zero reachable.zero,
    code_bounds_invariant.2.2.2.1 (run_ops 32768 queue_zero fill_ops).queue
      (run_ops_reachable fill_ops 32768 queue_zero reachable.zero)⟩

/-- C11. Each of `queue_push`, `queue_pop`, `uart_write_bytes`,
`uart_read_nonblocking` and `uart_read_blocking`, for every value of the
control/status register, every queue and every argument, leaves bit 15
(interrupt enable) of the register as it was when it returns: set before means
set after, clear before means clear after. The API functions run their own
save/disable/restore around the nested ones of `queue_push` and `queue_pop`. -/
theorem interrupt_enable_restored (reg : Nat) (q : queue_t) (s : uart_t) :
    (∀ byte, (queue_push reg q byte).reg.testBit 15 = reg.testBit 15) ∧
    (∀ byte, (queue_pop reg q byte).reg.testBit 15 = reg.testBit 15) ∧
    (∀ p data length r, uart_write_bytes s p data length = some r →
      r.state.UART_CONTROL_STATUS_REG.testBit 15 = s.UART_CONTROL_STATUS_REG.testBit 15) ∧
    (∀ buf m r, uart_read_nonblocking s buf m = some r →
      r.state.UART_CONTROL_STATUS_REG.testBit 15 = s.UART_CONTROL_STATUS_REG.testBit 15) ∧
    (∀ fuel buf length r, uart_read_blocking fuel s buf length = some r →
      r.state.UART_CONTROL_STATUS_REG.testBit 15 = s.UART_CONTROL_STATUS_REG.testBit 15) := by
  refine ⟨?_, ?_, ?_, ?_, ?_⟩
  · intro byte; rw [queue_push_reg, testBit_and_int_enable]
  · intro byte; rw [queue_pop_reg, testBit_and_int_enable]
  · intro p data length r h
    rw [uart_write_bytes_state s p data length r h]
    exact testBit_and_int_enable _
  · intro buf m r h
    rw [(uart_read_nonblocking_frame s buf m r h).1, testBit_and_int_enable]
  · intro fuel buf length r h
    rw [(uart_read_blocking_frame fuel s buf length r h).1, testBit_and_int_enable]

/-- Witness for C11: a read of up to 1000 bytes with interrupts enabled, one byte queued. -/
theorem interrupt_enable_restored_witness :
    ∃ r, uart_read_nonblocking after_one_rx (some rx_data) 1000 = some r ∧
      r.state.UART_CONTROL_STATUS_REG.testBit 15
        = after_one_rx.UART_CONTROL_STATUS_REG.testBit 15 := by
  obtain ⟨r, _, h, _⟩ :=
    uart_read_nonblocking_free after_one_rx rx_data 1000 (by decide) (by decide)
  exact ⟨r, h, (interrupt_enable_restored 0 queue_zero after_one_rx).2.2.2.1 _ _ r h⟩

/-- C12, as stated, fails: with status bits 0 and 14 set, an empty receive queue
and the counter at 4294967295, the handler leaves the counter at 0, which is not
the old value plus 1. -/
theorem receive_counter_wraps :
    counter_at_max.UART_CONTROL_STATUS_REG &&& RX_NOT_EMPTY ≠ 0 ∧
    counter_at_max.UART_CONTROL_STATUS_REG &&& RX_ENABLE ≠ 0 ∧
    counter_at_max.rx_queue.count < QUEUE_SIZE ∧
    (uart_interrupt_handler counter_at_max).m_received_bytes_count = 0 ∧
    (uart_interrupt_handler counter_at_max).m_received_bytes_count
      ≠ counter_at_max.m_received_bytes_count + 1 := by
  decide

/-- C12 as amended. For a driver state with a reachable receive queue, one
invocation of the handler with status bits 0 and 14 set and the receive queue not
full appends the byte of the data register to the back of the receive queue and
adds 1 to the receive counter modulo 2^32 (exactly 1 while the counter is below
4294967295); with the queue full, or with one of the two bits clear, the receive
queue and the counter are unchanged. -/
theorem uart_interrupt_handler_receive (s : uart_t) (hq : reachable s.rx_queue) :
    (s.UART_CONTROL_STATUS_REG &&& RX_NOT_EMPTY ≠ 0 →
      s.UART_CONTROL_STATUS_REG &&& RX_ENABLE ≠ 0 → s.rx_queue.count < QUEUE_SIZE →
      (uart_interrupt_handler s).rx_queue.contents = s.rx_queue.contents ++ [s.UART_DATA_REG] ∧
      (uart_interrupt_handler s).rx_queue.count = s.rx_queue.count + 1 ∧
      (uart_interrupt_handler s).m_received_bytes_count
        = (s.m_received_bytes_count + 1) % 2 ^ 32 ∧
      (s.m_received_bytes_count < 4294967295 →
        (uart_interrupt_handler s).m_received_bytes_count = s.m_received_bytes_count + 1)) ∧
    (s.UART_CONTROL_STATUS_REG &&& RX_NOT_EMPTY ≠ 0 →
      s.UART_CONTROL_STATUS_REG &&& RX_ENABLE ≠ 0 → s.rx_queue.count = QUEUE_SIZE →
      (uart_interrupt_handler s).rx_queue = s.rx_queue ∧
      (uart_interrupt_handler s).m_received_bytes_count = s.m_received_bytes_count) ∧
    (¬ (s.UART_CONTROL_STATUS_REG &&& RX_NOT_EMPTY ≠ 0 ∧
        s.UART_CONTROL_STATUS_REG &&& RX_ENABLE ≠ 0) →
      (uart_interrupt_handler s).rx_queue = s.rx_queue ∧
      (uart_interrupt_handler s).m_received_bytes_count = s.m_received_bytes_count) := by
  obtain ⟨h1, h2⟩ := uart_interrupt_handler_rx s
  refine ⟨?_, ?_, ?_⟩
  · intro hb0 hb14 hc
    obtain ⟨hret, _, hcont, hcnt⟩ :=
      queue_push_ok s.UART_CONTROL_STATUS_REG s.rx_queue s.UART_DATA_REG (reachable_inv _ hq) hc
    rw [if_pos ⟨hb0, hb14⟩] at h1
    rw [if_pos ⟨⟨hb0, hb14⟩, hret⟩] at h2
    refine ⟨by rw [h1, hcont], by rw [h1, hcnt], h2, ?_⟩
    intro hlt
    rw [h2]; omega
  · intro hb0 hb14 hc
    obtain ⟨hret, hqe⟩ :=
      queue_push_ret_full s.UART_CONTROL_STATUS_REG s.rx_queue s.UART_DATA_REG (by omega)
    have hne : ¬ ((s.UART_CONTROL_STATUS_REG &&& RX_NOT_EMPTY ≠ 0 ∧
        s.UART_CONTROL_STATUS_REG &&& RX_ENABLE ≠ 0) ∧
        (queue_push s.UART_CONTROL_STATUS_REG s.rx_queue s.UART_DATA_REG).ret
          = QUEUE_BUFFER_NO_ERROR) := by
      rw [hret]; simp
    rw [if_pos ⟨hb0, hb14⟩, hqe] at h1
    rw [if_neg hne] at h2
    exact ⟨h1, h2⟩
  · intro hb
    rw [if_neg hb] at h1
    rw [if_neg (fun h => hb h.1)] at h2
    exact ⟨h1, h2⟩

/-- Witness for C12: the first received byte after `uart_init`. -/
theorem uart_interrupt_handler_receive_witness :
    reachable (uart_init power_on).rx_queue ∧
    (0xE001 &&& RX_NOT_EMPTY ≠ 0 ∧ 0xE001 &&& RX_ENABLE ≠ 0 ∧
      (uart_init power_on).rx_queue.count < QUEUE_SIZE) ∧
    after_one_rx.rx_queue.contents = (uart_init power_on).rx_queue.contents ++ [65] ∧
    after_one_rx.rx_queue.count = (uart_init power_on).rx_queue.count + 1 ∧
    after_one_rx.m_received_bytes_count = ((uart_init power_on).m_received_bytes_count + 1)
      % 2 ^ 32 ∧
    ((uart_init power_on).m_received_bytes_count < 4294967295 →
      after_one_rx.m_received_bytes_count = (uart_init power_on).m_received_bytes_count + 1) :=
  ⟨reachable.zero, by decide,
    (uart_interrupt_handler_receive
      { uart_init power_on with UART_CONTROL_STATUS_REG := 0xE001, UART_DATA_REG := 65 }
      reachable.zero).1 (by decide) (by decide) (by decide)⟩

/-- C13. For a driver state with a reachable transmit queue, one invocation of
the handler with status bits 1 and 13 set and a non-empty transmit queue removes
the oldest byte of the transmit queue and leaves that byte in the data register;
with the transmit queue empty, or with one of the two bits clear, the transmit
queue and the data register are unchanged. An invocation removes at most one byte. -/
theorem uart_interrupt_handler_transmit (s : uart_t) (hq : reachable s.tx_queue) :
    (s.UART_CONTROL_STATUS_REG &&& TX_NOT_FULL ≠ 0 →
      s.UART_CONTROL_STATUS_REG &&& TX_ENABLE ≠ 0 → 0 < s.tx_queue.count →
      s.tx_queue.contents
        = (uart_interrupt_handler s).UART_DATA_REG :: (uart_interrupt_handler s).tx_queue.contents ∧
      (uart_interrupt_handler s).tx_queue.count + 1 = s.tx_queue.count) ∧
    (s.tx_queue.count = 0 ∨ ¬ (s.UART_CONTROL_STATUS_REG &&& TX_NOT_FULL ≠ 0 ∧
        s.UART_CONTROL_STATUS_REG &&& TX_ENABLE ≠ 0) →
      (uart_interrupt_handler s).tx_queue = s.tx_queue ∧
      (uart_interrupt_handler s).UART_DATA_REG = s.UART_DATA_REG) ∧
    s.tx_queue.count ≤ (uart_interrupt_handler s).tx_queue.count + 1 := by
  obtain ⟨reg, h1, h2⟩ := uart_interrupt_handler_tx s
  have hone : s.tx_queue.count ≤ (queue_pop reg s.tx_queue (some 0)).queue.count + 1 := by
    by_cases h0 : 0 < s.tx_queue.count
    · have := (queue_pop_ok reg s.tx_queue 0 (reachable_inv _ hq) h0).2.2.2.2
      omega
    · rw [(queue_pop_ret_empty reg s.tx_queue 0 (by omega)).2.1]; omega
  refine ⟨?_, ?_, ?_⟩
  · intro hb1 hb13 h0
    obtain ⟨hret, _, hbyte, hcont, hcnt⟩ :=
      queue_pop_ok reg s.tx_queue 0 (reachable_inv _ hq) h0
    rw [if_pos ⟨hb1, hb13⟩] at h1
    rw [if_pos ⟨⟨hb1, hb13⟩, hret⟩, hbyte, Option.getD_some] at h2
    rw [h1, h2]
    exact ⟨hcont, hcnt⟩
  · intro h
    rcases h with h0 | hb
    · obtain ⟨hret, hqe, _⟩ := queue_pop_ret_empty reg s.tx_queue 0 h0
      have hne : ¬ ((s.UART_CONTROL_STATUS_REG &&& TX_NOT_FULL ≠ 0 ∧
          s.UART_CONTROL_STATUS_REG &&& TX_ENABLE ≠ 0) ∧
          (queue_pop reg s.tx_queue (some 0)).ret = QUEUE_BUFFER_NO_ERROR) := by
        rw [hret]; simp
      rw [hqe, ite_self] at h1
      rw [if_neg hne] at h2
      exact ⟨h1, h2⟩
    · rw [if_neg hb] at h1
      rw [if_neg (fun h => hb h.1)] at h2
      exact ⟨h1, h2⟩
  · rw [h1]
    split
    · exact hone
    · omega

/-- Witness for C13: the handler invoked with transmit ready and enabled on a
transmit queue that holds the byte 65. -/
theorem uart_interrupt_handler_transmit_witness :
    reachable tx_pending.tx_queue ∧
    (tx_pending.UART_CONTROL_STATUS_REG &&& TX_NOT_FULL ≠ 0 ∧
      tx_pending.UART_CONTROL_STATUS_REG &&& TX_ENABLE ≠ 0 ∧ 0 < tx_pending.tx_queue.count) ∧
    tx_pending.tx_queue.contents
      = (uart_interrupt_handler tx_pending).UART_DATA_REG ::
          (uart_interrupt_handler tx_pending).tx_queue.contents ∧
    (uart_interrupt_handler tx_pending).tx_queue.count + 1 = tx_pending.tx_queue.count :=
  ⟨reachable.push 0 queue_zero 65 reachable.zero, by decide,
    (uart_interrupt_handler_transmit tx_pending
      (reachable.push 0 queue_zero 65 reachable.zero)).1 (by decide) (by decide) (by decide)⟩

/-- Every API call other than `uart_init` that returns leaves the receive counter,
the initialisation flag and the lock as they were. -/
theorem run_call_frame (s s2 : uart_t) (c : api_call) (h : run_call s c = some s2) :
    s2.m_received_bytes_count = s.m_received_bytes_count ∧
    s2.m_is_initialised = s.m_is_initialised ∧
    s2.uart_mutex.locked = s.uart_mutex.locked := by
  cases c with
  | write_bytes queue data length =>
    simp only [run_call, Option.map_eq_some'] at h
    obtain ⟨r, hr, rfl⟩ := h
    rw [uart_write_bytes_state s queue data length r hr]
    exact ⟨rfl, rfl, rfl⟩
  | read_blocking fuel output_buffer length =>
    simp only [run_call, Option.map_eq_some'] at h
    obtain ⟨r, hr, rfl⟩ := h
    obtain ⟨_, _, h3, h4, h5, _⟩ := uart_read_blocking_frame fuel s output_buffer length r hr
    exact ⟨h4, h5, h3⟩
  | read_nonblocking output_buffer max_length =>
    simp only [run_call, Option.map_eq_some'] at h
    obtain ⟨r, hr, rfl⟩ := h
    obtain ⟨_, _, h3, h4, h5, _⟩ := uart_read_nonblocking_frame s output_buffer max_length r hr
    exact ⟨h4, h5, h3⟩
  | reveived_bytes => simp only [run_call, Option.some.injEq] at h; subst h; exact ⟨rfl, rfl, rfl⟩
  | bytes_in_receive_queue =>
    simp only [run_call, Option.some.injEq] at h; subst h; exact ⟨rfl, rfl, rfl⟩
  | bytes_in_transmit_queue =>
    simp only [run_call, Option.some.injEq] at h; subst h; exact ⟨rfl, rfl, rfl⟩

theorem run_calls_frame (calls : List api_call) :
    ∀ (s s2 : uart_t), run_calls s calls = some s2 →
      s2.m_received_bytes_count = s.m_received_bytes_count ∧
      s2.m_is_initialised = s.m_is_initialised ∧
      s2.uart_mutex.locked = s.uart_mutex.locked := by
  induction calls with
  | nil => intro s s2 h; simp only [run_calls, Option.some.injEq] at h; subst h; exact ⟨rfl, rfl, rfl⟩
  | cons c cs ih =>
    intro s s2 h
    simp only [run_calls] at h
    cases hc : run_call s c with
    | none => simp [hc] at h
    | some s1 =>
      simp only [hc] at h
      obtain ⟨a1, a2, a3⟩ := run_call_frame s s1 c hc
      obtain ⟨b1, b2, b3⟩ := ih s1 s2 h
      exact ⟨b1.trans a1, b2.trans a2, b3.trans a3⟩

/-- C14, as stated, fails: on an initialised driver with the counter at
4294967295 one receive interrupt takes the counter down to 0. -/
theorem receive_counter_decreases :
    counter_at_max.m_is_initialised = true ∧
    uart_reveived_bytes (uart_interrupt_handler counter_at_max)
      < uart_reveived_bytes counter_at_max := by
  decide

/-- C14 as amended. `uart_write_bytes` (to either queue), `uart_read_nonblocking`,
`uart_read_blocking` and the three getters leave the receive counter unchanged;
after `uart_init` on a fresh driver and any sequence of these calls, with no
interrupt, `uart_reveived_bytes()` is 0; on an initialised driver `uart_init`
changes nothing, and the interrupt handler adds 0 or 1 modulo 2^32, so it
does not decrease a counter that is below 4294967295. -/
theorem receive_counter_frame (s : uart_t) :
    (∀ c s2, run_call s c = some s2 →
      uart_reveived_bytes s2 = uart_reveived_bytes s) ∧
    (∀ calls s2, s.m_is_initialised = false → run_calls (uart_init s) calls = some s2 →
      uart_reveived_bytes s2 = 0) ∧
    (s.m_is_initialised = true → uart_init s = s) ∧
    (uart_reveived_bytes (uart_interrupt_handler s) = uart_reveived_bytes s ∨
      uart_reveived_bytes (uart_interrupt_handler s) = (uart_reveived_bytes s + 1) % 2 ^ 32) ∧
    (uart_reveived_bytes s < 4294967295 →
      uart_reveived_bytes s ≤ uart_reveived_bytes (uart_interrupt_handler s)) := by
  have hisr := (uart_interrupt_handler_rx s).2
  refine ⟨?_, ?_, ?_, ?_, ?_⟩
  · intro c s2 h
    exact (run_call_frame s s2 c h).1
  · intro calls s2 hi h
    have := (run_calls_frame calls (uart_init s) s2 h).1
    simp only [uart_reveived_bytes, this, uart_init, hi, if_true]
  · intro hi
    simp only [uart_init, hi, Bool.true_eq_false, if_false]
  · simp only [uart_reveived_bytes]
    rw [hisr]
    split
    · right; rfl
    · left; rfl
  · intro hlt
    simp only [uart_reveived_bytes] at hlt ⊢
    rw [hisr]
    split <;> omega

/-- Witness for C14: after `uart_init`, a write to the receive queue and a
non-blocking read, the counter is 0. -/
theorem receive_counter_frame_witness :
    power_on.m_is_initialised = false ∧
    ∃ s2, run_calls (uart_init power_on)
        [api_call.write_bytes queue_ptr.rx (some tx_data) 13,
         api_call.read_nonblocking none 1000, api_call.reveived_bytes] = some s2 ∧
      uart_reveived_bytes s2 = 0 := by
  have hs : (run_calls (uart_init power_on)
      [api_call.write_bytes queue_ptr.rx (some tx_data) 13,
       api_call.read_nonblocking none 1000, api_call.reveived_bytes]).isSome = true := by
    decide
  obtain ⟨s2, h⟩ := Option.isSome_iff_exists.mp hs
  exact ⟨rfl, s2, h, (receive_counter_frame power_on).2.1 _ s2 rfl h⟩

/-- C15. `uart_init` is idempotent; on an initialised driver it changes nothing
(queues, counter, lock and registers stay as they are); on a driver not yet
initialised it leaves both queues zeroed (`head = tail = count = 0`), the counter
at 0, the lock free, the flag set and bits 14 (RX enable), 13 (TX enable) and 15
(interrupt enable) of the control/status register set. -/
theorem uart_init_idempotent (s : uart_t) :
    uart_init (uart_init s) = uart_init s ∧
    (s.m_is_initialised = true → uart_init s = s) ∧
    (s.m_is_initialised = false →
      (uart_init s).rx_queue = queue_zero ∧ (uart_init s).tx_queue = queue_zero ∧
      ((uart_init s).rx_queue.head = 0 ∧ (uart_init s).rx_queue.tail = 0 ∧
        (uart_init s).rx_queue.count = 0) ∧
      ((uart_init s).tx_queue.head = 0 ∧ (uart_init s).tx_queue.tail = 0 ∧
        (uart_init s).tx_queue.count = 0) ∧
      (uart_init s).m_received_bytes_count = 0 ∧
      (uart_init s).uart_mutex.locked = 0 ∧
      (uart_init s).m_is_initialised = true ∧
      (uart_init s).UART_CONTROL_STATUS_REG.testBit 14 = true ∧
      (uart_init s).UART_CONTROL_STATUS_REG.testBit 13 = true ∧
      (uart_init s).UART_CONTROL_STATUS_REG.testBit 15 = true) := by
  have hbits : ∀ x i : Nat, Nat.testBit (RX_ENABLE ||| TX_ENABLE ||| INT_ENABLE) i = true →
      (x ||| (RX_ENABLE ||| TX_ENABLE ||| INT_ENABLE)).testBit i = true := by
    intro x i h
    rw [Nat.testBit_or, h, Bool.or_true]
  cases hi : s.m_is_initialised with
  | true =>
    have h1 : uart_init s = s := by simp only [uart_init, hi, Bool.true_eq_false, if_false]
    refine ⟨by rw [h1, h1], fun _ => h1, fun h => absurd h (by simp)⟩
  | false =>
    refine ⟨?_, fun h => absurd h (by simp), fun _ => ?_⟩
    · simp only [uart_init, hi, if_true, Bool.true_eq_false, if_false]
    · have e : uart_init s =
          { s with
            tx_queue := queue_zero
            rx_queue := queue_zero
            uart_mutex := mutex_init s.uart_mutex
            m_received_bytes_count := 0
            UART_CONTROL_STATUS_REG :=
              s.UART_CONTROL_STATUS_REG ||| (RX_ENABLE ||| TX_ENABLE ||| INT_ENABLE)
            m_is_initialised := true } := by
        simp only [uart_init, hi, if_true]
      rw [e]
      exact ⟨rfl, rfl, ⟨rfl, rfl, rfl⟩, ⟨rfl, rfl, rfl⟩, rfl, rfl, rfl,
        hbits _ 14 (by decide), hbits _ 13 (by decide), hbits _ 15 (by decide)⟩

/-- Witness for C15: the first `uart_init` after power-on. -/
theorem uart_init_idempotent_witness :
    power_on.m_is_initialised = false ∧
    ((uart_init power_on).rx_queue = queue_zero ∧ (uart_init power_on).tx_queue = queue_zero ∧
      ((uart_init power_on).rx_queue.head = 0 ∧ (uart_init power_on).rx_queue.tail = 0 ∧
        (uart_init power_on).rx_queue.count = 0) ∧
      ((uart_init power_on).tx_queue.head = 0 ∧ (uart_init power_on).tx_queue.tail = 0 ∧
        (uart_init power_on).tx_queue.count = 0) ∧
      (uart_init power_on).m_received_bytes_count = 0 ∧
      (uart_init power_on).uart_mutex.locked = 0 ∧
      (uart_init power_on).m_is_initialised = true ∧
      (uart_init power_on).UART_CONTROL_STATUS_REG.testBit 14 = true ∧
      (uart_init power_on).UART_CONTROL_STATUS_REG.testBit 13 = true ∧
      (uart_init power_on).UART_CONTROL_STATUS_REG.testBit 15 = true) :=
  ⟨rfl, (uart_init_idempotent power_on).2.2 rfl⟩

/-- C16 fails on the code: on a freshly initialised driver, whatever the registers
and the memory held before `uart_init` and whatever `rx_data` holds, `uart_test`
returns `false`. The first write pushes nothing, the non-blocking read then
delivers 0 bytes, and the check `sizeof(tx_data) != bytes_read` ends the test. -/
theorem uart_test_returns_false (s0 : uart_t) (fuel : Nat) (rx_init : Nat → Nat) :
    (uart_test fuel rx_init (uart_init { s0 with m_is_initialised := false })).map Prod.fst
      = some false := by
  have hl : (uart_init { s0 with m_is_initialised := false }).uart_mutex.locked = 0 := by
    simp only [uart_init, if_true, mutex_init]
  have hq : (uart_init { s0 with m_is_initialised := false }).rx_queue = queue_zero := by
    simp only [uart_init, if_true]
  obtain ⟨w1, hw1, hret1, hrx1, -, hl1, -⟩ :=
    uart_write_bytes_free (uart_init { s0 with m_is_initialised := false }) queue_ptr.rx
      (some tx_data) 13 hl
  have hret1b : w1.ret = QUEUE_BUFFER_NO_ERROR := by
    rw [hret1]
    simp only [uart_t.queue, hq]
    decide
  rw [hq] at hrx1
  obtain ⟨r1, buf2, hr1, hret2, hlen, -⟩ :=
    uart_read_nonblocking_free w1.state rx_init 1000 (by rw [hrx1]; exact queue_zero_inv) hl1
  have hlen2 : r1.length = 0 := by rw [hlen, hrx1]; rfl
  simp only [uart_test, hw1, hret1b, hr1, hret2, hlen2, ne_eq, not_true_eq_false, if_false,
    OfNat.ofNat_ne_zero, not_false_eq_true, if_true, Option.map_some']

/-- C18. Every queue reachable from the zero-initialised queue by pushes and pops
has `head < 256`, `tail ≤ 256`, `count ≤ 256` and
`(head + count) mod 256 = tail mod 256`. On such a queue `queue_push` stores only
at a cell below 256, namely cell `(head + count) mod 256` right behind the valid
bytes, and `queue_pop` loads cell `head`; the `count` valid bytes are the cells
`head, head + 1, ...` modulo 256: a push appends to them and a pop removes the
first of them. -/
theorem reachable_queue_shape (q : queue_t) (h : reachable q) :
    q.head < 256 ∧ q.tail ≤ 256 ∧ q.count ≤ 256 ∧
    (q.head + q.count) % 256 = q.tail % 256 ∧
    (∀ reg byte i, 256 ≤ i → (queue_push reg q byte).queue.data i = q.data i) ∧
    (∀ reg byte, q.count < 256 →
      (queue_push reg q byte).queue.data ((q.head + q.count) % 256) = byte ∧
      (∀ i, i ≠ (q.head + q.count) % 256 → (queue_push reg q byte).queue.data i = q.data i) ∧
      (queue_push reg q byte).queue.contents = q.contents ++ [byte]) ∧
    (∀ reg out, 0 < q.count →
      (queue_pop reg q (some out)).byte = some (q.data q.head) ∧
      q.contents = q.data q.head :: (queue_pop reg q (some out)).queue.contents) := by
  have hinv := reachable_inv q h
  obtain ⟨h1, h2, h3, h4⟩ := hinv
  simp only [QUEUE_SIZE] at h1 h2 h3 h4
  have hidx : (if 256 ≤ q.tail then 0 else q.tail) = (q.head + q.count) % 256 := by
    split <;> omega
  refine ⟨h2, h3, h1, h4, ?_, ?_, ?_⟩
  · intro reg byte i hi
    by_cases hc : q.count < 256
    · have hne : i ≠ (q.head + q.count) % 256 := by omega
      simp only [queue_push, QUEUE_SIZE, hc, if_true, ge_iff_le, hidx]
      exact Function.update_noteq hne _ _
    · simp only [queue_push, QUEUE_SIZE, hc, if_false]
  · intro reg byte hc
    refine ⟨?_, ?_, (queue_push_ok reg q byte (reachable_inv q h) hc).2.2.1⟩
    · simp only [queue_push, QUEUE_SIZE, hc, if_true, ge_iff_le, hidx]
      exact Function.update_same _ _ _
    · intro i hne
      simp only [queue_push, QUEUE_SIZE, hc, if_true, ge_iff_le, hidx]
      exact Function.update_noteq hne _ _
  · intro reg out h0
    obtain ⟨_, _, hb, hcont, _⟩ := queue_pop_ok reg q out (reachable_inv q h) h0
    exact ⟨hb, hcont⟩

/-- Witness for C18: the queue after 256 pushes, full, with `tail = 256`. -/
theorem reachable_queue_shape_witness :
    reachable (run_ops 32768 queue_zero fill_ops).queue ∧
    (run_ops 32768 queue_zero fill_ops).queue.head < 256 ∧
    (run_ops 32768 queue_zero fill_ops).queue.tail ≤ 256 ∧
    (run_ops 32768 queue_zero fill_ops).queue.count ≤ 256 ∧
    ((run_ops 32768 queue_zero fill_ops).queue.head
      + (run_ops 32768 queue_zero fill_ops).queue.count) % 256
      = (run_ops 32768 queue_zero fill_ops).queue.tail % 256 :=
  ⟨run_ops_reachable fill_ops 32768 queue_zero reachable.zero,
    (reachable_queue_shape _ (run_ops_reachable fill_ops 32768 queue_zero reachable.zero)).1,
    (reachable_queue_shape _ (run_ops_reachable fill_ops 32768 queue_zero reachable.zero)).2.1,
    (reachable_queue_shape _ (run_ops_reachable fill_ops 32768 queue_zero reachable.zero)).2.2.1,
    (reachable_queue_shape _
      (run_ops_reachable fill_ops 32768 queue_zero reachable.zero)).2.2.2.1⟩

/-- C19 fails on the code: after `uart_init` the control/status register holds
bits 13, 14 and 15; one `queue_push`, or one `uart_write_bytes`, leaves only bit 15:
`IS_INTERRUPT_ENABLED()` stores `reg & INT_ENABLE` back into the register, which
clears RX enable and TX enable. -/
theorem enable_bits_cleared :
    (uart_init power_on).UART_CONTROL_STATUS_REG = 0xE000 ∧
    (queue_push (uart_init power_on).UART_CONTROL_STATUS_REG queue_zero 7).reg = 0x8000 ∧
    (uart_write_bytes (uart_init power_on) queue_ptr.tx (some tx_data) 13).map
        (fun r => (r.state.UART_CONTROL_STATUS_REG,
          r.state.UART_CONTROL_STATUS_REG.testBit 14,
          r.state.UART_CONTROL_STATUS_REG.testBit 13))
      = some (0x8000, false, false) := by
  decide

/-- C20. From a driver state with the lock free, each of `uart_write_bytes`,
`uart_read_nonblocking` and `uart_read_blocking`, for every argument (null
buffers and over-capacity lengths included), returns with the lock free whenever
it returns. -/
theorem lock_balance (s : uart_t) (hl : s.uart_mutex.locked = 0) :
    (∀ p data length r, uart_write_bytes s p data length = some r →
      r.state.uart_mutex.locked = 0) ∧
    (∀ buf m r, uart_read_nonblocking s buf m = some r → r.state.uart_mutex.locked = 0) ∧
    (∀ fuel buf length r, uart_read_blocking fuel s buf length = some r →
      r.state.uart_mutex.locked = 0) := by
  refine ⟨?_, ?_, ?_⟩
  · intro p data length r h
    rw [uart_write_bytes_state s p data length r h]
    exact hl
  · intro buf m r h
    rw [(uart_read_nonblocking_frame s buf m r h).2.2.1, hl]
  · intro fuel buf length r h
    rw [(uart_read_blocking_frame fuel s buf length r h).2.2.1, hl]

/-- Witness for C20: a blocking read of one byte when the receive queue holds one byte. -/
theorem lock_balance_witness :
    after_one_rx.uart_mutex.locked = 0 ∧
    ∃ r, uart_read_blocking 2 after_one_rx (some rx_data) 1 = some r ∧
      r.state.uart_mutex.locked = 0 := by
  obtain ⟨r, _, h, _⟩ :=
    uart_read_blocking_free after_one_rx rx_data 1 (by decide) (by decide) (by decide)
  exact ⟨by decide, r, h 2 (by decide),
    (lock_balance after_one_rx (by decide)).2.2 2 (some rx_data) 1 r (h 2 (by decide))⟩

end Uart
